import Mathlib

/-!
Verification of the slab allocator (mm/slab.c of the vendored 2.6.26 kernel
tree, the annotated copy in this repository).  The C code is shallowly
embedded: every definition below mirrors one function or one contiguous block
of the source.  Machine integers are modelled as Nat; the source arithmetic
can only wrap on inputs that are unreachable under the well-formedness
hypotheses stated with each theorem, and each such spot is marked by a
comment.
-/

namespace SlabM

/-- Constants the source takes from kernel headers that are not part of this
repository (PAGE_SIZE, L1_CACHE_BYTES, sizeof(void *), sizeof(struct slab),
sizeof(kmem_bufctl_t), ARCH_SLAB_MINALIGN, alignof(unsigned long long),
KMALLOC_MAX_SIZE, KMALLOC_MAX_ORDER, and the runtime value of
slab_break_gfp_order, which the source sets to BREAK_GFP_ORDER_LO = 0 or
BREAK_GFP_ORDER_HI = 1).  They are collected in one structure so that all
definitions are parametric in the build target. -/
structure Platform where
  pageSize : Nat
  cacheLineSize : Nat
  bytesPerWord : Nat
  sizeofSlab : Nat
  sizeofBufctl : Nat
  archSlabMinalign : Nat
  alignofULL : Nat
  kmallocMaxSize : Nat
  kmallocMaxOrder : Nat
  slabBreakGfpOrder : Nat
deriving Repr, DecidableEq

/-- Basic sanity of the platform constants.  The numeric bounds hold on every
target the kernel supports (for example x86: pageSize 4096, cache line 32 or
64, word 4 or 8, sizeof(struct slab) 28, sizeof(kmem_bufctl_t) 4). -/
def Platform.WF (P : Platform) : Prop :=
  0 < P.bytesPerWord ∧ 0 < P.cacheLineSize ∧ 0 < P.sizeofBufctl ∧
  0 < P.sizeofSlab ∧ 0 < P.pageSize ∧
  P.slabBreakGfpOrder ≤ 1 ∧
  P.slabBreakGfpOrder ≤ P.kmallocMaxOrder ∧
  8 ∣ P.pageSize ∧
  16 * P.sizeofBufctl + P.sizeofSlab ≤ P.pageSize / 8

instance (P : Platform) : Decidable P.WF := by
  unfold Platform.WF; infer_instance

/-- A concrete 32-bit x86 flavoured platform, used by witnesses. -/
def P32 : Platform :=
  { pageSize := 4096, cacheLineSize := 32, bytesPerWord := 4,
    sizeofSlab := 28, sizeofBufctl := 4, archSlabMinalign := 0,
    alignofULL := 8, kmallocMaxSize := 4194304, kmallocMaxOrder := 10,
    slabBreakGfpOrder := 1 }

/-- SLAB_LIMIT = ((kmem_bufctl_t)(~0U)) - 3 with kmem_bufctl_t = unsigned int. -/
def SLAB_LIMIT : Nat := 4294967292

/-- BATCHREFILL_LIMIT from the source. -/
def BATCHREFILL_LIMIT : Nat := 16

/-- The ALIGN(x, a) macro: (x + a - 1) & ~(a - 1).  For a natural-number model
we use y & ~m = y - (y & m); this agrees with the C macro for every a >= 1
(and every x + a - 1 that fits the C type, which well-formedness guarantees). -/
def ALIGN (x a : Nat) : Nat :=
  (x + a - 1) - Nat.land (x + a - 1) (a - 1)

/-- The subset of the kmem_cache_create flag word that the non-debug build
reads, modelled as a record instead of a bit mask.  off_slab is the internal
CFLGS_OFF_SLAB bit. -/
structure Flags where
  hwcache_align : Bool := false
  store_user : Bool := false
  red_zone : Bool := false
  reclaim_account : Bool := false
  cache_dma : Bool := false
  off_slab : Bool := false
deriving Repr, DecidableEq

/-- slab_mgmt_size(nr_objs, align) = ALIGN(sizeof(struct slab) +
nr_objs * sizeof(kmem_bufctl_t), align). -/
def slab_mgmt_size (P : Platform) (nr_objs align : Nat) : Nat :=
  ALIGN (P.sizeofSlab + nr_objs * P.sizeofBufctl) align

/-- cache_estimate: number of objects and left-over bytes for one slab of
2^gfporder pages.  Returns (left_over, num), matching the two output
parameters.  The source size_t subtractions cannot wrap here for platforms
with pageSize > sizeofSlab and inputs with buffer_size >= 1, which the
theorems assume. -/
def cache_estimate (P : Platform) (gfporder buffer_size align : Nat)
    (off_slab : Bool) : Nat × Nat :=
  let slab_size := P.pageSize <<< gfporder
  if off_slab then
    let nr_objs := slab_size / buffer_size
    let nr_objs := if SLAB_LIMIT < nr_objs then SLAB_LIMIT else nr_objs
    (slab_size - nr_objs * buffer_size, nr_objs)
  else
    let nr_objs := (slab_size - P.sizeofSlab) / (buffer_size + P.sizeofBufctl)
    let nr_objs :=
      if slab_size < slab_mgmt_size P nr_objs align + nr_objs * buffer_size
      then nr_objs - 1 else nr_objs
    let nr_objs := if SLAB_LIMIT < nr_objs then SLAB_LIMIT else nr_objs
    let mgmt_size := slab_mgmt_size P nr_objs align
    (slab_size - nr_objs * buffer_size - mgmt_size, nr_objs)

/-- Result triple saved by calculate_slab_order into the cache being built:
cachep->num, cachep->gfporder, and the returned left_over. -/
structure OrderResult where
  num : Nat
  gfporder : Nat
  left_over : Nat
deriving Repr, DecidableEq

/-- Maximum objects per slab for an off-slab cache, as computed inside
calculate_slab_order: (size - sizeof(struct slab)) / sizeof(kmem_bufctl_t). -/
def offslab_limit (P : Platform) (size : Nat) : Nat :=
  (size - P.sizeofSlab) / P.sizeofBufctl

/-- The loop of calculate_slab_order, iterating gfporder upward from g.
saved holds the last accepted (num, gfporder, left_over); the source keeps
them in cachep->num, cachep->gfporder and the local left_over, all initially
zero.  fuel is a structural bound on the remaining iterations; with fuel =
kmallocMaxOrder + 1 - g it never runs out before the loop bound does, so
the wrapper below is exactly the source loop. -/
def calc_order_loop (P : Platform) (size align : Nat) (flags : Flags) :
    Nat → Nat → OrderResult → OrderResult
  | 0, _, saved => saved
  | fuel + 1, g, saved =>
    if P.kmallocMaxOrder < g then saved
    else if (cache_estimate P g size align flags.off_slab).2 = 0 then
      calc_order_loop P size align flags fuel (g + 1) saved
    else if flags.off_slab ∧
        offslab_limit P size < (cache_estimate P g size align flags.off_slab).2 then
      saved
    else if flags.reclaim_account then
      ⟨(cache_estimate P g size align flags.off_slab).2, g,
       (cache_estimate P g size align flags.off_slab).1⟩
    else if P.slabBreakGfpOrder ≤ g then
      ⟨(cache_estimate P g size align flags.off_slab).2, g,
       (cache_estimate P g size align flags.off_slab).1⟩
    else if (cache_estimate P g size align flags.off_slab).1 * 8 ≤
        P.pageSize <<< g then
      ⟨(cache_estimate P g size align flags.off_slab).2, g,
       (cache_estimate P g size align flags.off_slab).1⟩
    else
      calc_order_loop P size align flags fuel (g + 1)
        ⟨(cache_estimate P g size align flags.off_slab).2, g,
         (cache_estimate P g size align flags.off_slab).1⟩

/-- calculate_slab_order: greedy search for the smallest acceptable slab
order, starting at gfporder 0. -/
def calculate_slab_order (P : Platform) (size align : Nat) (flags : Flags) :
    OrderResult :=
  calc_order_loop P size align flags (P.kmallocMaxOrder + 1) 0 ⟨0, 0, 0⟩

/-- The geometry part of a kmem_cache, i.e. the fields kmem_cache_create
computes before setup_cpu_cache runs.  ctor is the optional constructor; its
payload is the value the modelled constructor writes into an object. -/
structure KmemCache where
  num : Nat
  gfporder : Nat
  buffer_size : Nat
  align : Nat
  colour : Nat
  colour_off : Nat
  slab_size : Nat
  flags : Flags
  ctor : Option Nat
deriving Repr, DecidableEq

/-- Outcome of kmem_cache_create.  bug is the BUG() call on the early sanity
checks (a fatal kernel panic, not a return); fail is the NULL return taken
when the geometry search leaves cachep->num = 0 (the other NULL returns,
allocation failures inside kmem_cache_zalloc and setup_cpu_cache, are not
modelled and the claims do not mention them). -/
inductive CreateResult where
  | bug : CreateResult
  | fail : CreateResult
  | ok : KmemCache → CreateResult
deriving Repr, DecidableEq

/-- The while loop of the SLAB_HWCACHE_ALIGN branch: ralign =
cache_line_size(); while (size <= ralign / 2) ralign /= 2.  fuel bounds the
iterations structurally; ral halves every step, so fuel = ral (the wrapper
below) suffices for every run the C loop finishes (with size = 0 the C loop
never terminates once ral reaches 0). -/
def hw_align_go (size : Nat) : Nat → Nat → Nat
  | 0, ral => ral
  | fuel + 1, ral => if size ≤ ral / 2 then hw_align_go size fuel (ral / 2) else ral

/-- Entry point of the hardware-alignment loop. -/
def hw_align_loop (size ral : Nat) : Nat := hw_align_go size ral ral

/-- Word alignment of the requested size: if (size & (BYTES_PER_WORD - 1))
{ size += BYTES_PER_WORD - 1; size &= ~(BYTES_PER_WORD - 1); }. -/
def create_size_w (P : Platform) (size : Nat) : Nat :=
  if Nat.land size (P.bytesPerWord - 1) ≠ 0 then
    (size + (P.bytesPerWord - 1)) -
      Nat.land (size + (P.bytesPerWord - 1)) (P.bytesPerWord - 1)
  else size

/-- REDZONE_ALIGN = max(BYTES_PER_WORD, alignof(unsigned long long)). -/
def REDZONE_ALIGN (P : Platform) : Nat := max P.bytesPerWord P.alignofULL

/-- The final buffer alignment ralign, steps 1 to 3 of the comment block in
kmem_cache_create (arch recommendation, debug overrides, arch mandated
minimum, caller mandated alignment).  sizew is the word-aligned size. -/
def create_ralign (P : Platform) (flags : Flags) (sizew align : Nat) : Nat :=
  let ralign := if flags.hwcache_align then hw_align_loop sizew P.cacheLineSize
                else P.bytesPerWord
  let ralign := if flags.store_user then P.bytesPerWord else ralign
  let ralign := if flags.red_zone then REDZONE_ALIGN P else ralign
  let ralign := if ralign < P.archSlabMinalign then P.archSlabMinalign
                else ralign
  if ralign < align then align else ralign

/-- Size after the SLAB_RED_ZONE adjustment (size += REDZONE_ALIGN - 1;
size &= ~(REDZONE_ALIGN - 1)), applied to the word-aligned size. -/
def create_size_rz (P : Platform) (flags : Flags) (sizew : Nat) : Nat :=
  if flags.red_zone then ALIGN sizew (REDZONE_ALIGN P) else sizew

/-- Flag word after the debug-disable step: if (ralign > alignof(unsigned
long long)) flags &= ~(SLAB_RED_ZONE | SLAB_STORE_USER). -/
def create_flags_dbg (P : Platform) (flags : Flags) (ralign : Nat) : Flags :=
  if P.alignofULL < ralign then
    { flags with red_zone := false, store_user := false }
  else flags

/-- Off-slab placement decision: if ((size >= (PAGE_SIZE >> 3)) &&
!slab_early_init) flags |= CFLGS_OFF_SLAB.  The model describes a cache
created after boot, where slab_early_init is 0. -/
def create_flags_off (P : Platform) (flags : Flags) (size : Nat) : Flags :=
  if P.pageSize >>> 3 ≤ size then { flags with off_slab := true } else flags

/-- The size actually handed to calculate_slab_order:
size = ALIGN(size, align) after all the adjustments above. -/
def create_size_final (P : Platform) (flags : Flags) (size align : Nat) : Nat :=
  ALIGN (create_size_rz P flags (create_size_w P size)) align

/-- The tail of kmem_cache_create after the geometry search: the NULL return
for a zero object count, the off-slab to on-slab flip when the left-over
space can hold the management object (releasing exactly that space), the
unaligned off-slab management size, the colour unit (cache line, raised to
the alignment when that is larger) and the colour count. -/
def create_assemble (P : Platform) (ctor : Option Nat) (ralign : Nat)
    (flags2 : Flags) (size2 : Nat) (res : OrderResult) : CreateResult :=
  if res.num = 0 then CreateResult.fail
  else if flags2.off_slab = true ∧
      ALIGN (res.num * P.sizeofBufctl + P.sizeofSlab) ralign ≤ res.left_over then
    CreateResult.ok
      { num := res.num, gfporder := res.gfporder, buffer_size := size2,
        align := ralign,
        colour := (res.left_over -
            ALIGN (res.num * P.sizeofBufctl + P.sizeofSlab) ralign) /
          (if P.cacheLineSize < ralign then ralign else P.cacheLineSize),
        colour_off := if P.cacheLineSize < ralign then ralign
                      else P.cacheLineSize,
        slab_size := ALIGN (res.num * P.sizeofBufctl + P.sizeofSlab) ralign,
        flags := { flags2 with off_slab := false }, ctor := ctor }
  else
    CreateResult.ok
      { num := res.num, gfporder := res.gfporder, buffer_size := size2,
        align := ralign,
        colour := res.left_over /
          (if P.cacheLineSize < ralign then ralign else P.cacheLineSize),
        colour_off := if P.cacheLineSize < ralign then ralign
                      else P.cacheLineSize,
        slab_size := if flags2.off_slab then
            res.num * P.sizeofBufctl + P.sizeofSlab
          else ALIGN (res.num * P.sizeofBufctl + P.sizeofSlab) ralign,
        flags := flags2, ctor := ctor }

/-- kmem_cache_create for the non-debug build (the DEBUG and the #if 0 blocks
of the source compile away).  dtor must be absent in this kernel version.
The early sanity check calls BUG() - a fatal panic - rather than returning;
kmem_cache_zalloc and setup_cpu_cache are assumed to succeed. -/
def kmem_cache_create (P : Platform) (hasName : Bool) (size align : Nat)
    (flags : Flags) (ctor : Option Nat) (hasDtor inInterrupt : Bool) :
    CreateResult :=
  if ¬hasName ∨ inInterrupt ∨ size < P.bytesPerWord ∨
      P.kmallocMaxSize < size ∨ hasDtor then
    CreateResult.bug
  else
    create_assemble P ctor (create_ralign P flags (create_size_w P size) align)
      (create_flags_off P
        (create_flags_dbg P flags (create_ralign P flags (create_size_w P size) align))
        (create_size_rz P flags (create_size_w P size)))
      (create_size_final P flags size
        (create_ralign P flags (create_size_w P size) align))
      (calculate_slab_order P
        (create_size_final P flags size
          (create_ralign P flags (create_size_w P size) align))
        (create_ralign P flags (create_size_w P size) align)
        (create_flags_off P
          (create_flags_dbg P flags (create_ralign P flags (create_size_w P size) align))
          (create_size_rz P flags (create_size_w P size))))

/-- Registry view of creation: on success the new cache is prepended to the
cache_chain (list_add); on the NULL return the chain is untouched; BUG()
never returns, so the chain value is irrelevant there and left unchanged. -/
def kmem_cache_create_chain (P : Platform) (chain : List KmemCache)
    (hasName : Bool) (size align : Nat) (flags : Flags) (ctor : Option Nat)
    (hasDtor inInterrupt : Bool) : CreateResult × List KmemCache :=
  match kmem_cache_create P hasName size align flags ctor hasDtor inInterrupt with
  | CreateResult.ok c => (CreateResult.ok c, c :: chain)
  | r => (r, chain)

/-- An object pointer, identified by the id of its owning slab (the page
address, recoverable through the page map set up by slab_map_pages) and its
slot index inside that slab. -/
abbrev Obj := Nat × Nat

/-- The value map of object memory.  The allocator itself never writes
object payloads; only the constructor callback does, at slab growth. -/
abbrev Mem := Obj → Nat

/-- struct array_cache.  entry lists the avail stored pointers in array
order, so avail = entry.length; limit and batchcount are the tunables. -/
structure ArrayCache where
  entry : List Obj
  limit : Nat
  batchcount : Nat
  touched : Bool
deriving Repr, DecidableEq

/-- struct slab.  free is the bufctl free chain materialised as the list of
free slot indices starting at slabp->free; [] encodes free = BUFCTL_END. -/
structure Slab where
  id : Nat
  colouroff : Nat
  inuse : Nat
  free : List Nat
  nodeid : Nat
deriving Repr, DecidableEq

/-- struct kmem_list3.  The head of each slab list is the element reached by
list.next; list_add inserts at the head, list_add_tail at the tail.  alien
is indexed by remote node id. -/
structure KmemList3 where
  slabsFull : List Slab
  slabsPartial : List Slab
  slabsFree : List Slab
  free_objects : Nat
  free_limit : Nat
  shared : Option ArrayCache
  alien : List (Option ArrayCache)
  colour_next : Nat
  free_touched : Bool
deriving Repr, DecidableEq

/-- A freshly initialised kmem_list3 (kmem_list3_init). -/
def emptyL3 : KmemList3 :=
  { slabsFull := [], slabsPartial := [], slabsFree := [], free_objects := 0,
    free_limit := 0, shared := none, alien := [], colour_next := 0,
    free_touched := false }

instance : Inhabited KmemList3 := ⟨emptyL3⟩

/-- transfer_objects(to, from, max): move min(min(from->avail, max),
to->limit - to->avail) pointers from the top of from to the top of to.
Returns the updated caches and nr. -/
def transfer_objects (ta fr : ArrayCache) (mx : Nat) : ArrayCache × ArrayCache × Nat :=
  let nr := min (min fr.entry.length mx) (ta.limit - ta.entry.length)
  if nr = 0 then (ta, fr, 0)
  else
    ({ ta with entry := ta.entry ++ fr.entry.drop (fr.entry.length - nr),
               touched := true },
     { fr with entry := fr.entry.take (fr.entry.length - nr) }, nr)

/-- slab_get_obj: hand out the object at index slabp->free, follow the
bufctl chain, increment inuse.  An empty chain means free = BUFCTL_END and
the source would read past the bufctl array; that case is unreachable for
well-formed slabs (inuse < num implies a non-empty chain) and is modelled by
an arbitrary slot 0. -/
def slab_get_obj (slabp : Slab) : Obj × Slab :=
  match slabp.free with
  | f :: rest => ((slabp.id, f), { slabp with inuse := slabp.inuse + 1, free := rest })
  | [] => ((slabp.id, 0), { slabp with inuse := slabp.inuse + 1 })

/-- slab_put_obj: link the slot back at the head of the bufctl chain and
decrement inuse.  inuse = 0 here would be a double free; the source would
wrap the unsigned counter, the model truncates at 0, and the theorems
exclude that case. -/
def slab_put_obj (slabp : Slab) (objnr : Nat) : Slab :=
  { slabp with free := objnr :: slabp.free, inuse := slabp.inuse - 1 }

/-- Find the slab of an object inside one node list-set (the virt_to_slab
page lookup, restricted to the node the caller already holds the lock of). -/
def findSlab (l3 : KmemList3) (sid : Nat) : Option Slab :=
  (l3.slabsFull ++ l3.slabsPartial ++ l3.slabsFree).find? fun s => s.id == sid

/-- list_del of a slab from whichever of the three lists holds it. -/
def delSlab (l3 : KmemList3) (sid : Nat) : KmemList3 :=
  { l3 with
    slabsFull := l3.slabsFull.eraseP (fun s => s.id == sid),
    slabsPartial := l3.slabsPartial.eraseP (fun s => s.id == sid),
    slabsFree := l3.slabsFree.eraseP (fun s => s.id == sid) }

/-- One iteration of the free_block loop: look the slab up, unlink it,
slab_put_obj, count the object free, then either destroy the slab (free
count above the limit), put it on the free list, or append it to the tail of
the list of partly used slabs.  An object whose slab is not linked on this
node is an invalid free (the source would corrupt a foreign list) and is
modelled as a no-op; the theorems exclude it. -/
def free_block_one (num : Nat) (l3 : KmemList3) (objp : Obj) : KmemList3 :=
  match findSlab l3 objp.1 with
  | none => l3
  | some slabp =>
    let l3 := delSlab l3 objp.1
    let slabp := slab_put_obj slabp objp.2
    let l3 := { l3 with free_objects := l3.free_objects + 1 }
    if slabp.inuse = 0 then
      if l3.free_limit < l3.free_objects then
        { l3 with free_objects := l3.free_objects - num }
      else
        { l3 with slabsFree := slabp :: l3.slabsFree }
    else
      { l3 with slabsPartial := l3.slabsPartial ++ [slabp] }

/-- free_block(cachep, objpp, nr_objects, node): release the listed objects
into the node lists, one at a time. -/
def free_block (num : Nat) (l3 : KmemList3) (objpp : List Obj) : KmemList3 :=
  objpp.foldl (free_block_one num) l3

/-- cache_flusharray: under the node lock, either park a batch in the shared
array (when it exists and has room, capping the batch at that room and
skipping the slab bookkeeping entirely) or free_block the batch into the
slabs; then drop the moved prefix from the cpu array (avail -= batchcount
plus the memmove). -/
def cache_flusharray (num : Nat) (l3 : KmemList3) (ac : ArrayCache) :
    KmemList3 × ArrayCache :=
  let batchcount := ac.batchcount
  match l3.shared with
  | some shared_array =>
    let mx := shared_array.limit - shared_array.entry.length
    if mx ≠ 0 then
      let batchcount := if mx < batchcount then mx else batchcount
      let shared2 := { shared_array with
                       entry := shared_array.entry ++ ac.entry.take batchcount }
      ({ l3 with shared := some shared2 },
       { ac with entry := ac.entry.drop batchcount })
    else
      (free_block num l3 (ac.entry.take batchcount),
       { ac with entry := ac.entry.drop batchcount })
  | none =>
    (free_block num l3 (ac.entry.take batchcount),
     { ac with entry := ac.entry.drop batchcount })

/-- alloc_slabmgmt: obtain the slab descriptor.  On-slab it sits at the
start of the page range after the colour offset, and colouroff additionally
covers the management object (colour_off += cachep->slab_size); off-slab the
descriptor allocation is modelled as always succeeding and colouroff is the
colour offset alone. -/
def alloc_slabmgmt (c : KmemCache) (newId colour_off nodeid : Nat) : Slab :=
  { id := newId,
    colouroff := colour_off + (if c.flags.off_slab then 0 else c.slab_size),
    inuse := 0, free := [], nodeid := nodeid }

/-- cache_init_objs: run the constructor once per slot, then chain
bufctl[i] = i + 1 with the last slot at BUFCTL_END and free = 0, which
materialises to the chain [0, 1, ..., num - 1].  Returns the slab, the
object memory after the constructor writes, and the list of objects the
constructor ran on. -/
def cache_init_objs (c : KmemCache) (slabp : Slab) (mem : Mem) :
    Slab × Mem × List Obj :=
  match c.ctor with
  | some v =>
    ({ slabp with free := List.range c.num },
     (fun o => if o.1 = slabp.id ∧ o.2 < c.num then v else mem o),
     (List.range c.num).map fun i => (slabp.id, i))
  | none => ({ slabp with free := List.range c.num }, mem, [])

/-- cache_grow: advance the colour rotation (this happens under the node
lock before the page allocation, so it happens even when the allocation then
fails), get 2^gfporder pages (pageOK models the page-backing answer; newId
is the address of the fresh page range), build and initialise the slab, and
append it to the tail of the free list, raising free_objects by num.
Returns 1 or 0 as success flag, with the node list-set, the object memory
and the constructor log. -/
def cache_grow (c : KmemCache) (l3 : KmemList3) (nodeid : Nat)
    (pageOK : Bool) (newId : Nat) (mem : Mem) :
    Bool × KmemList3 × Mem × List Obj :=
  let offsetUnits := l3.colour_next
  let cn := l3.colour_next + 1
  let cn := if c.colour ≤ cn then 0 else cn
  let l3 := { l3 with colour_next := cn }
  let offset := offsetUnits * c.colour_off
  if ¬pageOK then (false, l3, mem, [])
  else
    let slabp := alloc_slabmgmt c newId offset nodeid
    let im := cache_init_objs c slabp mem
    (true,
     { l3 with slabsFree := l3.slabsFree ++ [im.1],
               free_objects := l3.free_objects + c.num },
     im.2.1, im.2.2)

/-- The inner loop of cache_alloc_refill: while (slabp->inuse < cachep->num
&& batchcount--) pull one object out of the slab into the cpu array.  The C
post-decrement leaves batchcount at -1 when it stops the loop; the model
stops at 0, and the outer loop treats 0 and -1 alike (both fail
batchcount > 0). -/
def slab_pull (c : KmemCache) : Slab → Nat → List Obj →
    Slab × Nat × List Obj
  | slabp, bc, acc =>
    if slabp.inuse < c.num then
      match bc with
      | 0 => (slabp, 0, acc)
      | b + 1 =>
        let g := slab_get_obj slabp
        slab_pull c g.2 b (acc ++ [g.1])
    else (slabp, bc, acc)

/-- Relinking after the pull: list_del already happened; a slab with free =
BUFCTL_END goes to the head of the full list, otherwise to the head of the
list of partly used slabs. -/
def refill_relink (l3 : KmemList3) (slabp : Slab) : KmemList3 :=
  if slabp.free = [] then { l3 with slabsFull := slabp :: l3.slabsFull }
  else { l3 with slabsPartial := slabp :: l3.slabsPartial }

/-- The outer refill loop: while batchcount > 0 take the first partly used
slab, else mark free_touched and take the first free slab, else stop
(must_grow); pull objects and relink.  fuel bounds the iteration count; with
fuel >= batchcount it never runs out on well-formed states, because every
iteration pulls at least one object (the source loops forever on states
violating that). -/
def refill_walk (c : KmemCache) (fuel bc : Nat) (acc : List Obj)
    (l3 : KmemList3) : List Obj × KmemList3 :=
  match fuel with
  | 0 => (acc, l3)
  | fuel + 1 =>
    if bc = 0 then (acc, l3)
    else
      match l3.slabsPartial with
      | slabp :: rest =>
        let l3 := { l3 with slabsPartial := rest }
        let p := slab_pull c slabp bc acc
        refill_walk c fuel p.2.1 p.2.2 (refill_relink l3 p.1)
      | [] =>
        let l3 := { l3 with free_touched := true }
        match l3.slabsFree with
        | slabp :: rest =>
          let l3 := { l3 with slabsFree := rest }
          let p := slab_pull c slabp bc acc
          refill_walk c fuel p.2.1 p.2.2 (refill_relink l3 p.1)
        | [] => (acc, l3)

/-- cache_alloc_refill with an explicit retry budget; the source retries
through the goto after a successful cache_grow, which for a well-formed
sequential state happens at most once (the new slab feeds the cpu array).
Returns the object, the node list-set, the cpu array, object memory and the
constructor log. -/
def cache_alloc_refill_go (c : KmemCache) (l3 : KmemList3) (ac : ArrayCache)
    (nodeid : Nat) (pageOK : Bool) (newId : Nat) (mem : Mem)
    (log : List Obj) : Nat → Option Obj × KmemList3 × ArrayCache × Mem × List Obj
  | 0 => (none, l3, ac, mem, log)
  | retries + 1 =>
    let batchcount := ac.batchcount
    let batchcount := if ¬ac.touched ∧ BATCHREFILL_LIMIT < batchcount then
                        BATCHREFILL_LIMIT else batchcount
    let shtr : ArrayCache × KmemList3 × Nat :=
      match l3.shared with
      | some sh =>
        let t := transfer_objects ac sh batchcount
        (t.1, { l3 with shared := some t.2.1 }, t.2.2)
      | none => (ac, l3, 0)
    let ac := shtr.1
    let l3 := shtr.2.1
    if shtr.2.2 ≠ 0 then
      ({ ac with touched := true }.entry.getLast?,
       l3, { ac with entry := ac.entry.dropLast, touched := true }, mem, log)
    else
      let w := refill_walk c batchcount batchcount [] l3
      let ac := { ac with entry := ac.entry ++ w.1 }
      let l3 := { w.2 with free_objects := w.2.free_objects - ac.entry.length }
      if ac.entry.length = 0 then
        let g := cache_grow c l3 nodeid pageOK newId mem
        if ¬g.1 then (none, g.2.1, ac, g.2.2.1, log ++ g.2.2.2)
        else cache_alloc_refill_go c g.2.1 ac nodeid pageOK newId g.2.2.1
               (log ++ g.2.2.2) retries
      else
        (ac.entry.getLast?,
         l3, { ac with entry := ac.entry.dropLast, touched := true }, mem, log)

/-- cache_alloc_refill as called from ____cache_alloc (retry budget 2 covers
the single goto retry a sequential execution can take). -/
def cache_alloc_refill (c : KmemCache) (l3 : KmemList3) (ac : ArrayCache)
    (nodeid : Nat) (pageOK : Bool) (newId : Nat) (mem : Mem) :
    Option Obj × KmemList3 × ArrayCache × Mem × List Obj :=
  cache_alloc_refill_go c l3 ac nodeid pageOK newId mem [] 2

/-- ____cache_alloc: pop the most recently freed entry from the cpu array
when one is there (setting touched), otherwise refill. -/
def cache_alloc (c : KmemCache) (l3 : KmemList3) (ac : ArrayCache)
    (nodeid : Nat) (pageOK : Bool) (newId : Nat) (mem : Mem) :
    Option Obj × KmemList3 × ArrayCache × Mem × List Obj :=
  if ac.entry.length ≠ 0 then
    (ac.entry.getLast?, l3,
     { ac with entry := ac.entry.dropLast, touched := true }, mem, [])
  else
    cache_alloc_refill c l3 ac nodeid pageOK newId mem

/-- The per-node list-sets of one cache: cachep->nodelists, indexed by node
id. -/
structure CacheState where
  nodes : List KmemList3
deriving Repr, DecidableEq

/-- Read nodelists[n]. -/
def getNode (st : CacheState) (n : Nat) : KmemList3 := st.nodes.getD n emptyL3

/-- Write nodelists[n]. -/
def setNode (st : CacheState) (n : Nat) (l3 : KmemList3) : CacheState :=
  { st with nodes := st.nodes.set n l3 }

/-- virt_to_slab through the global page map: find the slab of an object in
any node list-set. -/
def virt_to_slab (st : CacheState) (sid : Nat) : Option Slab :=
  st.nodes.findSome? fun l3 => findSlab l3 sid

/-- __drain_alien_cache: with the remote node lock held, stuff as much as
possible of the alien array into the remote shared array (bounded by the
alien limit), free_block the rest into the remote node lists, and empty the
alien array. -/
def drain_alien_cache_one (num : Nat) (rl3 : KmemList3) (ac : ArrayCache) :
    KmemList3 × ArrayCache :=
  if ac.entry.length = 0 then (rl3, ac)
  else
    let step : KmemList3 × ArrayCache :=
      match rl3.shared with
      | some sh =>
        let t := transfer_objects sh ac ac.limit
        ({ rl3 with shared := some t.1 }, t.2.1)
      | none => (rl3, ac)
    (free_block num step.1 step.2.entry, { step.2 with entry := [] })

/-- cache_free_alien (the CONFIG_NUMA build): returns whether the free was
taken over because the object belongs to another node.  node is the id of
the current core's node.  An object whose slab the page map cannot resolve
is undefined behaviour in the source and modelled as not handled; the
theorems exclude it. -/
def cache_free_alien (num : Nat) (st : CacheState) (node : Nat) (objp : Obj) :
    Bool × CacheState :=
  match virt_to_slab st objp.1 with
  | none => (false, st)
  | some slabp =>
    let nodeid := slabp.nodeid
    if nodeid = node then (false, st)
    else
      let l3 := getNode st node
      match l3.alien.getD nodeid none with
      | some alien =>
        if alien.entry.length = alien.limit then
          let d := drain_alien_cache_one num (getNode st nodeid) alien
          let st := setNode st nodeid d.1
          let alien2 := { d.2 with entry := d.2.entry ++ [objp] }
          let l3b := { getNode st node with
                       alien := (getNode st node).alien.set nodeid (some alien2) }
          (true, setNode st node l3b)
        else
          let alien2 := { alien with entry := alien.entry ++ [objp] }
          let l3b := { l3 with alien := l3.alien.set nodeid (some alien2) }
          (true, setNode st node l3b)
      | none =>
        let rl3 := free_block num (getNode st nodeid) [objp]
        (true, setNode st nodeid rl3)

/-- __cache_free: after cache_free_alien, either push onto the cpu array
(room left) or flush a batch to the current node first and then push. -/
def cache_free (num : Nat) (st : CacheState) (node : Nat) (ac : ArrayCache)
    (objp : Obj) : CacheState × ArrayCache :=
  let h := cache_free_alien num st node objp
  if h.1 then (h.2, ac)
  else if ac.entry.length < ac.limit then
    (h.2, { ac with entry := ac.entry ++ [objp] })
  else
    let f := cache_flusharray num (getNode h.2 node) ac
    (setNode h.2 node f.1, { f.2 with entry := f.2.entry ++ [objp] })

/-- drain_freelist(cache, l3, tofree): destroy up to tofree slabs taken from
the tail of the free list (slabs_free.prev), lowering free_objects by num
for each; stops early when the free list empties.  Returns the node list-set
and the count destroyed. -/
def drain_freelist (num : Nat) (l3 : KmemList3) : Nat → KmemList3 × Nat
  | 0 => (l3, 0)
  | tofree + 1 =>
    if l3.slabsFree = [] then (l3, 0)
    else
      let l3 := { l3 with slabsFree := l3.slabsFree.dropLast,
                          free_objects := l3.free_objects - num }
      let d := drain_freelist num l3 tofree
      (d.1, d.2 + 1)

/-- do_drain for one cpu: free_block the whole cpu array into its node and
empty it. -/
def do_drain (num : Nat) (st : CacheState) (node : Nat) (ac : ArrayCache) :
    CacheState × ArrayCache :=
  (setNode st node (free_block num (getNode st node) ac.entry),
   { ac with entry := [] })

/-- drain_array with force = 1, as drain_cpu_caches uses it on each shared
array: free_block all avail entries (tofree = avail never exceeds avail) and
empty the array; absent or empty arrays are left alone. -/
def drain_array_force (num : Nat) (l3 : KmemList3) : KmemList3 :=
  match l3.shared with
  | none => l3
  | some sh =>
    if sh.entry.length = 0 then l3
    else
      let l3b := free_block num l3 sh.entry
      { l3b with shared := some { sh with entry := [] } }

/-- drain_alien_cache over the alien array set of one node: drain each
present alien array into its remote node. -/
def drain_alien_all (num : Nat) (st : CacheState) (node : Nat) :
    CacheState :=
  (List.range (getNode st node).alien.length).foldl
    (fun st i =>
      match (getNode st node).alien.getD i none with
      | none => st
      | some ac =>
        let d := drain_alien_cache_one num (getNode st i) ac
        let st := setNode st i d.1
        let l3b := { getNode st node with
                     alien := (getNode st node).alien.set i (some d.2) }
        setNode st node l3b)
    st

/-- drain_cpu_caches: do_drain on every cpu array (each cpu names its node),
then drain the alien arrays of every node, then drain_array on every shared
array with force = 1. -/
def drain_cpu_caches (num : Nat) (st : CacheState)
    (acs : List (Nat × ArrayCache)) : CacheState × List (Nat × ArrayCache) :=
  let step := acs.foldl
    (fun p nac =>
      let d := do_drain num p.1 nac.1 nac.2
      (d.1, p.2 ++ [(nac.1, d.2)]))
    (st, ([] : List (Nat × ArrayCache)))
  let st := (List.range step.1.nodes.length).foldl
    (fun st n => drain_alien_all num st n) step.1
  let st := (List.range st.nodes.length).foldl
    (fun st n => setNode st n (drain_array_force num (getNode st n))) st
  (st, step.2)

/-- __cache_shrink: drain the cpu level, then destroy every free-list slab
of every node, and report 1 when any full or partly used slab remains. -/
def cache_shrink_core (num : Nat) (st : CacheState)
    (acs : List (Nat × ArrayCache)) :
    CacheState × List (Nat × ArrayCache) × Bool :=
  let d := drain_cpu_caches num st acs
  let st := (List.range d.1.nodes.length).foldl
    (fun st n =>
      let l3 := getNode st n
      setNode st n (drain_freelist num l3 l3.free_objects).1)
    d.1
  let rem := st.nodes.any fun l3 =>
    ¬l3.slabsFull.isEmpty ∨ ¬l3.slabsPartial.isEmpty
  (st, d.2, rem)

/-- The registry and per-cache state kmem_cache_destroy manipulates. -/
structure DestroyOutcome where
  chain : List KmemCache
  live : Option (CacheState × List (Nat × ArrayCache))
  failed : Bool
deriving Repr, DecidableEq

/-- kmem_cache_destroy: unlink from cache_chain, __cache_shrink; on failure
(full or partly used slabs remain) relink into cache_chain and return with
the cache intact; on success free the cache (live = none). -/
def kmem_cache_destroy (c : KmemCache) (chain : List KmemCache)
    (st : CacheState) (acs : List (Nat × ArrayCache)) : DestroyOutcome :=
  let chain1 := chain.eraseP (fun d => d == c)
  let s := cache_shrink_core c.num st acs
  if s.2.2 then
    { chain := c :: chain1, live := some (s.1, s.2.1), failed := true }
  else
    { chain := chain1, live := none, failed := false }

/-- Left-over bytes of a created cache, reconstructed from its stored
geometry: slab bytes minus object bytes minus on-slab management bytes.
This equals the left_over local of kmem_cache_create at the point the colour
count is computed. -/
def cache_left_over (P : Platform) (c : KmemCache) : Nat :=
  (P.pageSize <<< c.gfporder) - c.num * c.buffer_size -
    (if c.flags.off_slab then 0 else c.slab_size)

instance : Inhabited KmemCache :=
  ⟨{ num := 0, gfporder := 0, buffer_size := 0, align := 0, colour := 0,
     colour_off := 0, slab_size := 0, flags := {}, ctor := none }⟩

/-- Extract the cache of a successful creation (default on failure). -/
def theCache (r : CreateResult) : KmemCache :=
  match r with
  | CreateResult.ok c => c
  | _ => default

/-- Acceptance predicate of the slab-order search as the specification
phrases it: at order g at least one object fits, and the order is reclaim
accounted, or has reached the global order ceiling, or wastes at most an
eighth of the slab to fragmentation. -/
def orderCand (P : Platform) (size align : Nat) (flags : Flags) (g : Nat) : Prop :=
  1 ≤ (cache_estimate P g size align flags.off_slab).2 ∧
    (flags.reclaim_account = true ∨ P.slabBreakGfpOrder ≤ g ∨
      (cache_estimate P g size align flags.off_slab).1 * 8 ≤ P.pageSize <<< g)

instance (P : Platform) (size align : Nat) (flags : Flags) (g : Nat) :
    Decidable (orderCand P size align flags g) := by
  unfold orderCand; infer_instance

end SlabM

namespace SlabM

/-! ## Claim C4: failure modes of cache creation -/

/-- C4 as written is false: a request below the minimum word size does not
produce a no-cache failure return; the early sanity check calls BUG(), a
fatal panic, and the same holds for oversized requests and calls from
interrupt context.  Concrete input: size 3 on a 4-byte-word platform. -/
theorem C4_counterexample :
    kmem_cache_create P32 true 3 0 {} none false false = CreateResult.bug ∧
    CreateResult.bug ≠ CreateResult.fail ∧
    kmem_cache_create P32 true 4194305 0 {} none false false = CreateResult.bug ∧
    kmem_cache_create P32 true 64 0 {} none false true = CreateResult.bug := by
  decide

/-- C4 amended: an object size below the word size, a size above the
KMALLOC_MAX_SIZE ceiling, or a call from a context where blocking is
disallowed makes kmem_cache_create panic through BUG() rather than return;
only a geometry-search failure (no order fits even one object) yields the
no-cache return, and then nothing is inserted into the cache chain.  A
successful creation is registered at the head of the chain. -/
theorem C4_create_failure_modes (P : Platform) (chain : List KmemCache)
    (hasName : Bool) (size align : Nat) (flags : Flags) (ctor : Option Nat)
    (inInterrupt : Bool) :
    ((size < P.bytesPerWord ∨ P.kmallocMaxSize < size ∨ inInterrupt = true) →
      kmem_cache_create P hasName size align flags ctor false inInterrupt =
        CreateResult.bug) ∧
    ((hasName = true ∧ inInterrupt = false ∧ P.bytesPerWord ≤ size ∧
        size ≤ P.kmallocMaxSize ∧
        (calculate_slab_order P
          (create_size_final P flags size
            (create_ralign P flags (create_size_w P size) align))
          (create_ralign P flags (create_size_w P size) align)
          (create_flags_off P
            (create_flags_dbg P flags
              (create_ralign P flags (create_size_w P size) align))
            (create_size_rz P flags (create_size_w P size)))).num = 0) →
      kmem_cache_create P hasName size align flags ctor false inInterrupt =
        CreateResult.fail) ∧
    (kmem_cache_create P hasName size align flags ctor false inInterrupt =
        CreateResult.fail →
      kmem_cache_create_chain P chain hasName size align flags ctor false
        inInterrupt = (CreateResult.fail, chain)) ∧
    (∀ c, kmem_cache_create P hasName size align flags ctor false inInterrupt =
        CreateResult.ok c →
      kmem_cache_create_chain P chain hasName size align flags ctor false
        inInterrupt = (CreateResult.ok c, c :: chain)) := by
  refine ⟨?_, ?_, ?_, ?_⟩
  · intro h
    have hc : (¬hasName = true ∨ inInterrupt = true ∨ size < P.bytesPerWord ∨
        P.kmallocMaxSize < size ∨ (false : Bool) = true) := by
      rcases h with h | h | h
      · exact Or.inr (Or.inr (Or.inl h))
      · exact Or.inr (Or.inr (Or.inr (Or.inl h)))
      · exact Or.inr (Or.inl h)
    unfold kmem_cache_create
    rw [if_pos hc]
  · rintro ⟨hn, hi, hlo, hhi, hg⟩
    have hc : ¬(¬hasName = true ∨ inInterrupt = true ∨ size < P.bytesPerWord ∨
        P.kmallocMaxSize < size ∨ (false : Bool) = true) := by
      push_neg
      exact ⟨by simp [hn], by simp [hi], by omega, by omega, by simp⟩
    unfold kmem_cache_create
    rw [if_neg hc]
    unfold create_assemble
    rw [if_pos hg]
  · intro h
    unfold kmem_cache_create_chain
    rw [h]
  · intro c h
    unfold kmem_cache_create_chain
    rw [h]

/-- Witness for C4: the bug branch at size 3, and the no-cache branch on a
platform whose maximum order is 0 with a request of two pages, where no
order fits an object; in both cases the chain stays empty, and a successful
creation at size 64 registers the cache. -/
theorem C4_witness :
    kmem_cache_create P32 true 3 0 {} none false false = CreateResult.bug ∧
    kmem_cache_create
      { P32 with kmallocMaxOrder := 0, slabBreakGfpOrder := 0 }
      true 8192 0 {} none false false = CreateResult.fail ∧
    kmem_cache_create_chain
      { P32 with kmallocMaxOrder := 0, slabBreakGfpOrder := 0 }
      [] true 8192 0 {} none false false = (CreateResult.fail, []) := by
  refine ⟨?_, ?_, ?_⟩
  · exact (C4_create_failure_modes P32 [] true 3 0 {} none false).1
      (Or.inl (by decide))
  · exact (C4_create_failure_modes
      { P32 with kmallocMaxOrder := 0, slabBreakGfpOrder := 0 }
      [] true 8192 0 {} none false).2.1
      ⟨rfl, rfl, by decide, by decide, by decide⟩
  · exact (C4_create_failure_modes
      { P32 with kmallocMaxOrder := 0, slabBreakGfpOrder := 0 }
      [] true 8192 0 {} none false).2.2.1
      ((C4_create_failure_modes
        { P32 with kmallocMaxOrder := 0, slabBreakGfpOrder := 0 }
        [] true 8192 0 {} none false).2.1
        ⟨rfl, rfl, by decide, by decide, by decide⟩)

/-! ## Helper lemmas on the slab-order search -/

/-- Any result of the order-search loop with a nonzero object count is the
cache_estimate triple of its own order: the loop only ever saves the two
outputs of one cache_estimate call together with the order it inspected. -/
theorem calc_order_loop_est (P : Platform) (size align : Nat) (flags : Flags) :
    ∀ fuel g saved,
    (saved.num ≠ 0 →
      saved.num = (cache_estimate P saved.gfporder size align flags.off_slab).2 ∧
      saved.left_over = (cache_estimate P saved.gfporder size align flags.off_slab).1) →
    (calc_order_loop P size align flags fuel g saved).num ≠ 0 →
    (calc_order_loop P size align flags fuel g saved).num =
      (cache_estimate P (calc_order_loop P size align flags fuel g saved).gfporder
        size align flags.off_slab).2 ∧
    (calc_order_loop P size align flags fuel g saved).left_over =
      (cache_estimate P (calc_order_loop P size align flags fuel g saved).gfporder
        size align flags.off_slab).1 := by
  intro fuel
  induction fuel with
  | zero => intro g saved hs hn; exact hs hn
  | succ fuel ih =>
    intro g saved hs
    simp only [calc_order_loop]
    by_cases h1 : P.kmallocMaxOrder < g
    · simp only [if_pos h1]; exact hs
    · simp only [if_neg h1]
      by_cases h2 : (cache_estimate P g size align flags.off_slab).2 = 0
      · simp only [if_pos h2]; exact ih (g + 1) saved hs
      · simp only [if_neg h2]
        by_cases h3 : flags.off_slab = true ∧
            offslab_limit P size < (cache_estimate P g size align flags.off_slab).2
        · simp only [if_pos h3]; exact hs
        · simp only [if_neg h3]
          by_cases h4 : flags.reclaim_account = true
          · simp only [if_pos h4]; intro _; exact ⟨by simp, by simp⟩
          · simp only [if_neg h4]
            by_cases h5 : P.slabBreakGfpOrder ≤ g
            · simp only [if_pos h5]; intro _; exact ⟨by simp, by simp⟩
            · simp only [if_neg h5]
              by_cases h6 : (cache_estimate P g size align flags.off_slab).1 * 8 ≤
                  P.pageSize <<< g
              · simp only [if_pos h6]; intro _; exact ⟨by simp, by simp⟩
              · simp only [if_neg h6]
                exact ih (g + 1) _ (fun _ => ⟨by simp, by simp⟩)

/-- The same consistency fact for the search entry point. -/
theorem calculate_slab_order_est (P : Platform) (size align : Nat)
    (flags : Flags)
    (hn : (calculate_slab_order P size align flags).num ≠ 0) :
    (calculate_slab_order P size align flags).num =
      (cache_estimate P (calculate_slab_order P size align flags).gfporder
        size align flags.off_slab).2 ∧
    (calculate_slab_order P size align flags).left_over =
      (cache_estimate P (calculate_slab_order P size align flags).gfporder
        size align flags.off_slab).1 :=
  calc_order_loop_est P size align flags (P.kmallocMaxOrder + 1) 0 ⟨0, 0, 0⟩
    (fun h => absurd rfl h) hn

/-- Success inversion for create_assemble: the search found a nonzero object
count and the cache fields are exactly the assembled values, split by
whether the off-slab to on-slab flip fired. -/
theorem create_assemble_ok_inv (P : Platform) (ctor : Option Nat)
    (ralign : Nat) (flags2 : Flags) (size2 : Nat) (res : OrderResult)
    (c : KmemCache)
    (hok : create_assemble P ctor ralign flags2 size2 res = CreateResult.ok c) :
    res.num ≠ 0 ∧
    ((flags2.off_slab = true ∧
        ALIGN (res.num * P.sizeofBufctl + P.sizeofSlab) ralign ≤ res.left_over ∧
        c = { num := res.num, gfporder := res.gfporder, buffer_size := size2,
              align := ralign,
              colour := (res.left_over -
                  ALIGN (res.num * P.sizeofBufctl + P.sizeofSlab) ralign) /
                (if P.cacheLineSize < ralign then ralign else P.cacheLineSize),
              colour_off := if P.cacheLineSize < ralign then ralign
                            else P.cacheLineSize,
              slab_size := ALIGN (res.num * P.sizeofBufctl + P.sizeofSlab) ralign,
              flags := { flags2 with off_slab := false }, ctor := ctor }) ∨
      (¬(flags2.off_slab = true ∧
          ALIGN (res.num * P.sizeofBufctl + P.sizeofSlab) ralign ≤ res.left_over) ∧
        c = { num := res.num, gfporder := res.gfporder, buffer_size := size2,
              align := ralign,
              colour := res.left_over /
                (if P.cacheLineSize < ralign then ralign else P.cacheLineSize),
              colour_off := if P.cacheLineSize < ralign then ralign
                            else P.cacheLineSize,
              slab_size := if flags2.off_slab then
                  res.num * P.sizeofBufctl + P.sizeofSlab
                else ALIGN (res.num * P.sizeofBufctl + P.sizeofSlab) ralign,
              flags := flags2, ctor := ctor })) := by
  unfold create_assemble at hok
  by_cases h1 : res.num = 0
  · rw [if_pos h1] at hok; exact absurd hok (by simp)
  · rw [if_neg h1] at hok
    refine ⟨h1, ?_⟩
    by_cases h2 : flags2.off_slab = true ∧
        ALIGN (res.num * P.sizeofBufctl + P.sizeofSlab) ralign ≤ res.left_over
    · rw [if_pos h2] at hok
      exact Or.inl ⟨h2.1, h2.2, (CreateResult.ok.inj hok).symm⟩
    · rw [if_neg h2] at hok
      exact Or.inr ⟨h2, (CreateResult.ok.inj hok).symm⟩

/-- Success inversion for kmem_cache_create: success is exactly a successful
assembly of the staged geometry values. -/
theorem create_ok_inv (P : Platform) (hasName : Bool) (size align : Nat)
    (flags : Flags) (ctor : Option Nat) (inInterrupt : Bool) (c : KmemCache)
    (hok : kmem_cache_create P hasName size align flags ctor false inInterrupt =
      CreateResult.ok c) :
    create_assemble P ctor (create_ralign P flags (create_size_w P size) align)
      (create_flags_off P
        (create_flags_dbg P flags (create_ralign P flags (create_size_w P size) align))
        (create_size_rz P flags (create_size_w P size)))
      (create_size_final P flags size
        (create_ralign P flags (create_size_w P size) align))
      (calculate_slab_order P
        (create_size_final P flags size
          (create_ralign P flags (create_size_w P size) align))
        (create_ralign P flags (create_size_w P size) align)
        (create_flags_off P
          (create_flags_dbg P flags (create_ralign P flags (create_size_w P size) align))
          (create_size_rz P flags (create_size_w P size)))) = CreateResult.ok c := by
  unfold kmem_cache_create at hok
  split at hok
  · exact absurd hok (by simp)
  · exact hok

/-- Stage shorthand: the final alignment computed by kmem_cache_create. -/
def createRalign (P : Platform) (size align : Nat) (flags : Flags) : Nat :=
  create_ralign P flags (create_size_w P size) align

/-- Stage shorthand: the flag word handed to the order search. -/
def createFlags2 (P : Platform) (size align : Nat) (flags : Flags) : Flags :=
  create_flags_off P
    (create_flags_dbg P flags (createRalign P size align flags))
    (create_size_rz P flags (create_size_w P size))

/-- Stage shorthand: the aligned buffer size handed to the order search. -/
def createSize2 (P : Platform) (size align : Nat) (flags : Flags) : Nat :=
  create_size_final P flags size (createRalign P size align flags)

/-- Stage shorthand: the order search result inside kmem_cache_create. -/
def createOrder (P : Platform) (size align : Nat) (flags : Flags) : OrderResult :=
  calculate_slab_order P (createSize2 P size align flags)
    (createRalign P size align flags) (createFlags2 P size align flags)

/-- Stage shorthand: the aligned slab management size of the search result. -/
def createSlabSize (P : Platform) (size align : Nat) (flags : Flags) : Nat :=
  ALIGN ((createOrder P size align flags).num * P.sizeofBufctl + P.sizeofSlab)
    (createRalign P size align flags)

/-- The success inversion restated through the stage shorthands. -/
theorem create_ok_inv2 (P : Platform) (hasName : Bool) (size align : Nat)
    (flags : Flags) (ctor : Option Nat) (inInterrupt : Bool) (c : KmemCache)
    (hok : kmem_cache_create P hasName size align flags ctor false inInterrupt =
      CreateResult.ok c) :
    create_assemble P ctor (createRalign P size align flags)
      (createFlags2 P size align flags) (createSize2 P size align flags)
      (createOrder P size align flags) = CreateResult.ok c :=
  create_ok_inv P hasName size align flags ctor inInterrupt c hok

/-- Shape of the off-slab estimate: the left-over is the slab bytes minus
the object bytes (no management bytes inside the slab). -/
theorem cache_estimate_off (P : Platform) (g size align : Nat) :
    (cache_estimate P g size align true).1 =
      (P.pageSize <<< g) - (cache_estimate P g size align true).2 * size := by
  simp [cache_estimate]

/-- Shape of the on-slab estimate: the left-over is the slab bytes minus the
object bytes minus the aligned management bytes. -/
theorem cache_estimate_on (P : Platform) (g size align : Nat) :
    (cache_estimate P g size align false).1 =
      (P.pageSize <<< g) - (cache_estimate P g size align false).2 * size -
        slab_mgmt_size P (cache_estimate P g size align false).2 align := by
  simp [cache_estimate]

/-- The colour unit written with max. -/
theorem colour_unit_max (a b : Nat) : (if a < b then b else a) = max a b := by
  by_cases h : a < b
  · simp [h, Nat.max_eq_right h.le]
  · simp [h, Nat.max_eq_left (Nat.not_lt.mp h)]

/-- The estimate consistency of the search result inside kmem_cache_create,
stated through the stage shorthands. -/
theorem createOrder_est (P : Platform) (size align : Nat) (flags : Flags)
    (hnum : (createOrder P size align flags).num ≠ 0) :
    (createOrder P size align flags).num =
      (cache_estimate P (createOrder P size align flags).gfporder
        (createSize2 P size align flags) (createRalign P size align flags)
        (createFlags2 P size align flags).off_slab).2 ∧
    (createOrder P size align flags).left_over =
      (cache_estimate P (createOrder P size align flags).gfporder
        (createSize2 P size align flags) (createRalign P size align flags)
        (createFlags2 P size align flags).off_slab).1 :=
  calculate_slab_order_est P (createSize2 P size align flags)
    (createRalign P size align flags) (createFlags2 P size align flags) hnum

/-- For every successful creation, the reconstructed left-over bytes of the
cache equal the internal left_over at the point the colour count was
computed, and the colour count divides it by colour_off. -/
theorem create_colour_spec (P : Platform) (hasName : Bool) (size align : Nat)
    (flags : Flags) (ctor : Option Nat) (inInterrupt : Bool) (c : KmemCache)
    (hok : kmem_cache_create P hasName size align flags ctor false inInterrupt =
      CreateResult.ok c) :
    c.colour_off = max P.cacheLineSize c.align ∧
    c.colour = cache_left_over P c / c.colour_off := by
  have h := create_assemble_ok_inv P ctor _ _ _ _ c (create_ok_inv2 P hasName
    size align flags ctor inInterrupt c hok)
  obtain ⟨hnum, hsplit⟩ := h
  have hest := createOrder_est P size align flags hnum
  rcases hsplit with ⟨hoff, _hle, hc⟩ | ⟨hnotflip, hc⟩
  · subst hc
    refine ⟨colour_unit_max _ _, ?_⟩
    simp only [cache_left_over]
    rw [hoff] at hest
    rw [hest.2, cache_estimate_off, ← hest.1]
    simp
  · subst hc
    refine ⟨colour_unit_max _ _, ?_⟩
    simp only [cache_left_over]
    by_cases hoff : (createFlags2 P size align flags).off_slab = true
    · rw [hoff] at hest
      rw [hest.2, cache_estimate_off, ← hest.1]
      simp [hoff]
    · have hoff2 : (createFlags2 P size align flags).off_slab = false :=
        Bool.eq_false_iff.mpr hoff
      rw [hoff2] at hest
      rw [hest.2, cache_estimate_on, ← hest.1]
      simp only [hoff2, Bool.false_eq_true, if_false]
      rw [slab_mgmt_size, Nat.add_comm]

/-- All-zero object memory, a convenient initial memory for witnesses. -/
def mem0 : Mem := fun _ => 0

/-! ## Claim C6: the off-slab to on-slab flip -/

/-- C6: when kmem_cache_create chose off-slab placement but the left-over
space of the selected geometry is at least the aligned management size, the
created cache is on-slab, keeps that aligned management size, and its
left-over space shrinks by exactly the management size; the hypothesis
admits equality, so on-slab wins the tie. -/
theorem C6_offslab_flip (P : Platform) (hasName : Bool) (size align : Nat)
    (flags : Flags) (ctor : Option Nat) (inInterrupt : Bool) (c : KmemCache)
    (hok : kmem_cache_create P hasName size align flags ctor false inInterrupt =
      CreateResult.ok c)
    (hoff : (createFlags2 P size align flags).off_slab = true)
    (hfit : createSlabSize P size align flags ≤
      (createOrder P size align flags).left_over) :
    c.flags.off_slab = false ∧
    c.slab_size = createSlabSize P size align flags ∧
    cache_left_over P c =
      (createOrder P size align flags).left_over -
        createSlabSize P size align flags := by
  obtain ⟨hnum, hsplit⟩ := create_assemble_ok_inv P ctor _ _ _ _ c
    (create_ok_inv2 P hasName size align flags ctor inInterrupt c hok)
  have hest := createOrder_est P size align flags hnum
  rcases hsplit with ⟨_, _, hc⟩ | ⟨hnot, _⟩
  · subst hc
    refine ⟨rfl, rfl, ?_⟩
    simp only [cache_left_over]
    rw [hoff] at hest
    rw [hest.2, cache_estimate_off, ← hest.1]
    simp [createSlabSize]
  · exact absurd ⟨hoff, by unfold createSlabSize at hfit; exact hfit⟩ hnot

/-- Witness for C6 at the exact-fit boundary: object size 1352 on the 32-bit
platform gives an off-slab choice with left_over 40 equal to the management
size 40; the created cache is on-slab and its left-over drops to zero. -/
theorem C6_witness :
    kmem_cache_create P32 true 1352 0 {} none false false = CreateResult.ok
      { num := 3, gfporder := 0, buffer_size := 1352, align := 4, colour := 0,
        colour_off := 32, slab_size := 40, flags := {}, ctor := none } ∧
    (createFlags2 P32 1352 0 {}).off_slab = true ∧
    createSlabSize P32 1352 0 {} = 40 ∧
    (createOrder P32 1352 0 {}).left_over = 40 ∧
    ({ num := 3, gfporder := 0, buffer_size := 1352, align := 4, colour := 0,
       colour_off := 32, slab_size := 40, flags := {},
       ctor := none } : KmemCache).flags.off_slab = false ∧
    cache_left_over P32
      { num := 3, gfporder := 0, buffer_size := 1352, align := 4, colour := 0,
        colour_off := 32, slab_size := 40, flags := {}, ctor := none } = 0 := by
  refine ⟨by decide, by decide, by decide, by decide, ?_, ?_⟩
  · exact (C6_offslab_flip P32 true 1352 0 {} none false
      { num := 3, gfporder := 0, buffer_size := 1352, align := 4, colour := 0,
        colour_off := 32, slab_size := 40, flags := {}, ctor := none }
      (by decide) (by decide) (by decide)).1
  · have h := (C6_offslab_flip P32 true 1352 0 {} none false
      { num := 3, gfporder := 0, buffer_size := 1352, align := 4, colour := 0,
        colour_off := 32, slab_size := 40, flags := {}, ctor := none }
      (by decide) (by decide) (by decide)).2.2
    rw [h]
    decide

/-! ## Claim C7: colour count and colour unit -/

/-- C7 as written is false: the coloring unit is not always the platform
cache-line size.  Concrete input: size 100 with caller alignment 64 on a
platform with 32-byte cache lines; colour_off becomes 64 (the alignment),
the left-over is 64 bytes, and the colour count is 64 / 64 = 1, not
64 / 32 = 2. -/
theorem C7_counterexample :
    kmem_cache_create P32 true 100 64 {} none false false = CreateResult.ok
      { num := 30, gfporder := 0, buffer_size := 128, align := 64, colour := 1,
        colour_off := 64, slab_size := 192, flags := {}, ctor := none } ∧
    cache_left_over P32
      { num := 30, gfporder := 0, buffer_size := 128, align := 64, colour := 1,
        colour_off := 64, slab_size := 192, flags := {}, ctor := none } = 64 ∧
    P32.cacheLineSize = 32 ∧
    ({ num := 30, gfporder := 0, buffer_size := 128, align := 64, colour := 1,
       colour_off := 64, slab_size := 192, flags := {},
       ctor := none } : KmemCache).colour ≠
      cache_left_over P32
        { num := 30, gfporder := 0, buffer_size := 128, align := 64,
          colour := 1, colour_off := 64, slab_size := 192, flags := {},
          ctor := none } / P32.cacheLineSize := by
  decide

/-- C7 amended: the coloring unit is the larger of the platform cache-line
size and the cache alignment (the source raises colour_off from
cache_line_size() to the alignment when that is bigger); the colour count is
the left-over bytes divided by that unit; and a cache with zero left-over
bytes has colour count zero, which behaves as exactly one colour: the colour
rotation is pinned at zero from any state, and every slab grown at rotation
position zero receives coloring offset zero. -/
theorem C7_colour_rule (P : Platform) (hasName : Bool) (size align : Nat)
    (flags : Flags) (ctor : Option Nat) (inInterrupt : Bool) (c : KmemCache)
    (hok : kmem_cache_create P hasName size align flags ctor false inInterrupt =
      CreateResult.ok c) :
    c.colour_off = max P.cacheLineSize c.align ∧
    c.colour = cache_left_over P c / c.colour_off ∧
    (cache_left_over P c = 0 → c.colour = 0 ∧
      (∀ (l3 : KmemList3) (nodeid : Nat) (pageOK : Bool) (newId : Nat) (mem : Mem),
        (cache_grow c l3 nodeid pageOK newId mem).2.1.colour_next = 0) ∧
      (∀ (l3 : KmemList3) (nodeid newId : Nat) (mem : Mem), l3.colour_next = 0 →
        (cache_grow c l3 nodeid true newId mem).2.1.slabsFree =
          l3.slabsFree ++ [{ id := newId,
                             colouroff := (if c.flags.off_slab then 0
                                           else c.slab_size),
                             inuse := 0, free := List.range c.num,
                             nodeid := nodeid }])) := by
  obtain ⟨hunit, hcol⟩ := create_colour_spec P hasName size align flags ctor
    inInterrupt c hok
  refine ⟨hunit, hcol, ?_⟩
  intro h0
  have hc0 : c.colour = 0 := by rw [hcol, h0, Nat.zero_div]
  refine ⟨hc0, ?_, ?_⟩
  · intro l3 nodeid pageOK newId mem
    simp [cache_grow, hc0, cache_init_objs, alloc_slabmgmt]
    split <;> rfl
  · intro l3 nodeid newId mem hcn
    simp [cache_grow, hc0, hcn, cache_init_objs, alloc_slabmgmt]
    split <;> simp

/-- Witness for C7 at size 64 with caller alignment 64: the cache has zero
left-over bytes, colour count zero, unit 64, and growth keeps the colour
rotation at zero with coloring offset zero on the new slab. -/
theorem C7_witness :
    kmem_cache_create P32 true 64 64 {} none false false = CreateResult.ok
      { num := 59, gfporder := 0, buffer_size := 64, align := 64, colour := 0,
        colour_off := 64, slab_size := 320, flags := {}, ctor := none } ∧
    ({ num := 59, gfporder := 0, buffer_size := 64, align := 64, colour := 0,
       colour_off := 64, slab_size := 320, flags := {},
       ctor := none } : KmemCache).colour_off =
      max P32.cacheLineSize 64 ∧
    (cache_grow
      { num := 59, gfporder := 0, buffer_size := 64, align := 64, colour := 0,
        colour_off := 64, slab_size := 320, flags := {}, ctor := none }
      emptyL3 0 true 7 mem0).2.1.colour_next = 0 := by
  refine ⟨by decide, ?_, ?_⟩
  · exact (C7_colour_rule P32 true 64 64 {} none false _ (by decide)).1
  · exact ((C7_colour_rule P32 true 64 64 {} none false _
      (by decide)).2.2 (by decide)).2.1 emptyL3 0 true 7 mem0

/-! ## Claim C3: flushing a full front-end -/

/-- Fixture: a node list-set with one full slab and a shared array with one
spare sl0t. -/
def c3l3 : KmemList3 :=
  { emptyL3 with
    slabsFull := [{ id := 5, colouroff := 0, inuse := 3, free := [], nodeid := 0 }],
    free_limit := 10,
    shared := some { entry := [(9, 9)], limit := 2, batchcount := 2,
                     touched := false } }

/-- Fixture: a full front-end of three entries with batch size two. -/
def c3ac : ArrayCache :=
  { entry := [(5, 0), (5, 1), (5, 2)], limit := 3, batchcount := 2,
    touched := false }

/-- C3 as written is false: with a shared array that has spare capacity 1
and a batch size of 2, the flush moves only one entry (the capped batch)
into the shared array and returns nothing at all into the slabs; the
front-end keeps the other batch entry, so it does not end up holding its
previous entries minus the batch. -/
theorem C3_counterexample :
    (cache_flusharray 3 c3l3 c3ac).2.entry = [(5, 1), (5, 2)] ∧
    (cache_flusharray 3 c3l3 c3ac).2.entry ≠ c3ac.entry.drop c3ac.batchcount ∧
    (cache_flusharray 3 c3l3 c3ac).1.slabsFull = c3l3.slabsFull ∧
    (cache_flusharray 3 c3l3 c3ac).1.slabsPartial = [] ∧
    (cache_flusharray 3 c3l3 c3ac).1.slabsFree = [] := by
  decide

/-- C3 amended: when a shared array exists and has spare room, the batch -
capped at that room - moves entirely into the shared array, no entry is
returned into any slab, and the front-end drops exactly the moved prefix;
only when no shared array exists, or it is completely full, is the whole
batch returned one entry at a time into the owning slabs through
free_block, the front-end then dropping the whole batch; and each returned
object makes its slab free-list gain the object, decrements in_use, and
relinks the slab to the tail of the list of partly used slabs when objects
remain in use, to the free list when it empties under the free-object
ceiling, or destroys it when the count exceeds the ceiling. -/
theorem C3_flush_behaviour (num : Nat) (l3 : KmemList3) (ac : ArrayCache) :
    (∀ sh, l3.shared = some sh → sh.entry.length < sh.limit →
      cache_flusharray num l3 ac =
        ({ l3 with shared := some { sh with
                                    entry := sh.entry ++ ac.entry.take
                                      (min ac.batchcount
                                        (sh.limit - sh.entry.length)) } },
         { ac with entry := ac.entry.drop
                     (min ac.batchcount (sh.limit - sh.entry.length)) })) ∧
    (l3.shared = none →
      cache_flusharray num l3 ac =
        (free_block num l3 (ac.entry.take ac.batchcount),
         { ac with entry := ac.entry.drop ac.batchcount })) ∧
    (∀ sh, l3.shared = some sh → sh.entry.length = sh.limit →
      cache_flusharray num l3 ac =
        (free_block num l3 (ac.entry.take ac.batchcount),
         { ac with entry := ac.entry.drop ac.batchcount })) ∧
    (∀ (l3b : KmemList3) (o : Obj) (s : Slab), findSlab l3b o.1 = some s →
      (slab_put_obj s o.2).free = o.2 :: s.free ∧
      (slab_put_obj s o.2).inuse = s.inuse - 1 ∧
      (1 < s.inuse →
        free_block_one num l3b o =
          { delSlab l3b o.1 with
            free_objects := l3b.free_objects + 1,
            slabsPartial := (delSlab l3b o.1).slabsPartial ++
              [slab_put_obj s o.2] }) ∧
      (s.inuse = 1 → l3b.free_objects + 1 ≤ l3b.free_limit →
        free_block_one num l3b o =
          { delSlab l3b o.1 with
            free_objects := l3b.free_objects + 1,
            slabsFree := slab_put_obj s o.2 :: (delSlab l3b o.1).slabsFree }) ∧
      (s.inuse = 1 → l3b.free_limit < l3b.free_objects + 1 →
        free_block_one num l3b o =
          { delSlab l3b o.1 with
            free_objects := l3b.free_objects + 1 - num })) := by
  refine ⟨?_, ?_, ?_, ?_⟩
  · intro sh hsh hroom
    have hmx : sh.limit - sh.entry.length ≠ 0 := by omega
    have hmin : (if sh.limit - sh.entry.length < ac.batchcount then
        sh.limit - sh.entry.length else ac.batchcount) =
        min ac.batchcount (sh.limit - sh.entry.length) := by
      rcases Nat.lt_or_ge (sh.limit - sh.entry.length) ac.batchcount with h | h
      · simp [h, Nat.min_eq_right h.le]
      · simp [Nat.not_lt.mpr h, Nat.min_eq_left h]
    simp only [cache_flusharray, hsh, hmx, ne_eq, not_false_iff, if_true,
      hmin]
  · intro hnone
    simp only [cache_flusharray, hnone]
  · intro sh hsh hfull
    have hmx : ¬(sh.limit - sh.entry.length ≠ 0) := by omega
    simp only [cache_flusharray, hsh, hmx, if_false]
  · intro l3b o s hfind
    refine ⟨rfl, rfl, ?_, ?_, ?_⟩
    · intro hgt
      have hne : ¬(slab_put_obj s o.2).inuse = 0 := by
        simp only [slab_put_obj]; omega
      simp only [free_block_one, hfind, hne, if_false]
      rfl
    · intro hone hle
      have hz : (slab_put_obj s o.2).inuse = 0 := by
        simp only [slab_put_obj]; omega
      have hnl : ¬(delSlab l3b o.1).free_limit < l3b.free_objects + 1 := by
        simp only [delSlab]; omega
      simp only [free_block_one, hfind, hz, if_true, delSlab] at hnl ⊢
      simp only [hnl, if_false]
    · intro hone hgt
      have hz : (slab_put_obj s o.2).inuse = 0 := by
        simp only [slab_put_obj]; omega
      have hnl : (delSlab l3b o.1).free_limit < l3b.free_objects + 1 := by
        simp only [delSlab]; omega
      simp only [free_block_one, hfind, hz, if_true, delSlab] at hnl ⊢
      simp only [hnl, if_true]

/-- Witness for C3: the shared-array path at spare room 1 with batch 2, the
no-shared path, and one partly-used relink through free_block_one. -/
theorem C3_witness :
    cache_flusharray 3 c3l3 c3ac =
      ({ c3l3 with shared := some { entry := [(9, 9), (5, 0)], limit := 2,
                                    batchcount := 2, touched := false } },
       { c3ac with entry := [(5, 1), (5, 2)] }) ∧
    free_block_one 3 c3l3 (5, 0) =
      { delSlab c3l3 5 with
        free_objects := 1,
        slabsPartial := [{ id := 5, colouroff := 0, inuse := 2, free := [0],
                           nodeid := 0 }] } := by
  constructor
  · have h := (C3_flush_behaviour 3 c3l3 c3ac).1
      { entry := [(9, 9)], limit := 2, batchcount := 2, touched := false }
      (by decide) (by decide)
    rw [h]
    decide
  · have h := ((C3_flush_behaviour 3 c3l3 c3ac).2.2.2 c3l3 (5, 0)
      { id := 5, colouroff := 0, inuse := 3, free := [], nodeid := 0 }
      (by decide)).2.2.1 (by decide)
    rw [h]
    decide

/-! ## Node indexing lemmas -/

/-- Reading back the node just written. -/
theorem getNode_setNode_same (st : CacheState) (n : Nat) (l3 : KmemList3)
    (h : n < st.nodes.length) : getNode (setNode st n l3) n = l3 := by
  simp [getNode, setNode, List.getD_eq_getElem?_getD, List.getElem?_set_self,
    h]

/-- Writing one node leaves the others unchanged. -/
theorem getNode_setNode_ne (st : CacheState) (n m : Nat) (l3 : KmemList3)
    (h : m ≠ n) : getNode (setNode st n l3) m = getNode st m := by
  simp [getNode, setNode, List.getD_eq_getElem?_getD, List.getElem?_set_ne
    (fun hx => h hx.symm)]

/-- setNode keeps the node count. -/
theorem setNode_length (st : CacheState) (n : Nat) (l3 : KmemList3) :
    (setNode st n l3).nodes.length = st.nodes.length := by
  simp [setNode]

/-- Folding a per-node update over the node indices applies the update to
every node once; stated pointwise through getNode. -/
theorem foldl_setNode_get (f : KmemList3 → KmemList3) (st : CacheState) :
    ∀ k, k ≤ st.nodes.length →
    (∀ m, m < k →
      getNode ((List.range k).foldl
        (fun st2 n => setNode st2 n (f (getNode st2 n))) st) m =
        f (getNode st m)) ∧
    (∀ m, k ≤ m →
      getNode ((List.range k).foldl
        (fun st2 n => setNode st2 n (f (getNode st2 n))) st) m =
        getNode st m) ∧
    ((List.range k).foldl
        (fun st2 n => setNode st2 n (f (getNode st2 n))) st).nodes.length =
      st.nodes.length := by
  intro k
  induction k with
  | zero => exact fun _ => ⟨fun m hm => absurd hm (Nat.not_lt_zero m),
      fun _ _ => rfl, rfl⟩
  | succ k ih =>
    intro hk
    have ih2 := ih (Nat.le_of_succ_le hk)
    rw [List.range_succ, List.foldl_append]
    simp only [List.foldl_cons, List.foldl_nil]
    have hlen : k < ((List.range k).foldl
        (fun st2 n => setNode st2 n (f (getNode st2 n))) st).nodes.length := by
      rw [ih2.2.2]; omega
    refine ⟨?_, ?_, ?_⟩
    · intro m hm
      rcases Nat.lt_or_ge m k with h | h
      · rw [getNode_setNode_ne _ _ _ _ (by omega), ih2.1 m h]
      · have hmk : m = k := by omega
        subst hmk
        rw [getNode_setNode_same _ _ _ hlen, ih2.2.1 m (Nat.le_refl m)]
    · intro m hm
      rw [getNode_setNode_ne _ _ _ _ (by omega), ih2.2.1 m (by omega)]
    · rw [setNode_length, ih2.2.2]

/-- drain_freelist destroys every slab on the free list when asked to free
at least as many as there are. -/
theorem drain_freelist_all (num : Nat) :
    ∀ t l3, l3.slabsFree.length ≤ t →
    ((drain_freelist num l3 t).1).slabsFree = [] := by
  intro t
  induction t with
  | zero =>
    intro l3 h
    exact List.length_eq_zero.mp (Nat.le_zero.mp h)
  | succ t ih =>
    intro l3 h
    simp only [drain_freelist]
    by_cases he : l3.slabsFree = []
    · simp only [he, if_true]
    · simp only [he, if_false]
      apply ih
      have : l3.slabsFree.dropLast.length = l3.slabsFree.length - 1 := by
        simp [List.length_dropLast]
      simp only [this]
      have hpos : 0 < l3.slabsFree.length := List.length_pos.mpr he
      omega

/-- A registry entry occurring at most once is gone after eraseP. -/
theorem not_mem_eraseP_count (c : KmemCache) (chain : List KmemCache)
    (h : chain.count c ≤ 1) : c ∉ chain.eraseP (fun d => d == c) := by
  induction chain with
  | nil => simp
  | cons a l ih =>
    by_cases ha : a = c
    · subst ha
      rw [List.eraseP_cons_of_pos (by simp)]
      rw [List.count_cons_self] at h
      exact List.count_eq_zero.mp (by omega)
    · rw [List.eraseP_cons_of_neg (by simp [ha])]
      intro hmem
      rcases List.mem_cons.mp hmem with h1 | h1
      · exact ha h1.symm
      · rw [List.count_cons_of_ne (fun hh => ha hh.symm)] at h
        exact ih h h1

/-! ## Claim C10: destruction requires a clean shrink -/

/-- C10: destroying a cache whose shrink leaves full or partly used slabs
fails recoverably - the cache stays in the registry (relinked into the
chain) and its post-shrink state, including those slabs, is kept alive;
only a clean shrink removes and destroys the cache.  The shrink itself
reports leftovers exactly when some node keeps a full or partly used slab,
and it has destroyed every free-list slab (each node frees free_objects
many, which covers its free list whenever the drained counters dominate the
list lengths). -/
theorem C10_destroy_requires_clean_shrink (c : KmemCache)
    (chain : List KmemCache) (st : CacheState)
    (acs : List (Nat × ArrayCache)) :
    ((cache_shrink_core c.num st acs).2.2 = true →
      (kmem_cache_destroy c chain st acs).failed = true ∧
      (kmem_cache_destroy c chain st acs).live =
        some ((cache_shrink_core c.num st acs).1,
              (cache_shrink_core c.num st acs).2.1) ∧
      c ∈ (kmem_cache_destroy c chain st acs).chain) ∧
    ((cache_shrink_core c.num st acs).2.2 = false →
      (kmem_cache_destroy c chain st acs).failed = false ∧
      (kmem_cache_destroy c chain st acs).live = none ∧
      (chain.count c ≤ 1 → c ∉ (kmem_cache_destroy c chain st acs).chain)) ∧
    ((cache_shrink_core c.num st acs).2.2 = true ↔
      ∃ l3 ∈ (cache_shrink_core c.num st acs).1.nodes,
        ¬l3.slabsFull = [] ∨ ¬l3.slabsPartial = []) ∧
    ((∀ n, n < (drain_cpu_caches c.num st acs).1.nodes.length →
        (getNode (drain_cpu_caches c.num st acs).1 n).slabsFree.length ≤
          (getNode (drain_cpu_caches c.num st acs).1 n).free_objects) →
      ∀ n, n < (cache_shrink_core c.num st acs).1.nodes.length →
        (getNode (cache_shrink_core c.num st acs).1 n).slabsFree = []) := by
  refine ⟨?_, ?_, ?_, ?_⟩
  · intro h
    unfold kmem_cache_destroy
    simp only [h, if_true]
    exact ⟨by trivial, by trivial, List.mem_cons_self c _⟩
  · intro h
    unfold kmem_cache_destroy
    simp only [h, Bool.false_eq_true, if_false]
    exact ⟨by trivial, by trivial,
      fun hcount => not_mem_eraseP_count c chain hcount⟩
  · show (cache_shrink_core c.num st acs).1.nodes.any _ = true ↔ _
    rw [List.any_eq_true]
    constructor
    · rintro ⟨l3, hmem, hp⟩
      exact ⟨l3, hmem, by simpa using of_decide_eq_true hp⟩
    · rintro ⟨l3, hmem, hp⟩
      exact ⟨l3, hmem, decide_eq_true (by simpa using hp)⟩
  · intro hdom n hn
    have hfold := foldl_setNode_get
      (fun l3 => (drain_freelist c.num l3 l3.free_objects).1)
      (drain_cpu_caches c.num st acs).1
      (drain_cpu_caches c.num st acs).1.nodes.length (Nat.le_refl _)
    have hlen : (cache_shrink_core c.num st acs).1.nodes.length =
        (drain_cpu_caches c.num st acs).1.nodes.length := hfold.2.2
    have hget : getNode (cache_shrink_core c.num st acs).1 n =
        (drain_freelist c.num (getNode (drain_cpu_caches c.num st acs).1 n)
          (getNode (drain_cpu_caches c.num st acs).1 n).free_objects).1 :=
      hfold.1 n (by omega)
    rw [hget]
    exact drain_freelist_all c.num _ _ (hdom n (by omega))

/-- Fixture: a small cache geometry for the shrink and destroy scenarios. -/
def c10cache : KmemCache :=
  { num := 2, gfporder := 0, buffer_size := 64, align := 4, colour := 0,
    colour_off := 32, slab_size := 40, flags := {}, ctor := none }

/-- Fixture: one node holding one fully used slab. -/
def c10full : CacheState :=
  { nodes := [{ emptyL3 with
                slabsFull := [{ id := 1, colouroff := 0, inuse := 2,
                                free := [], nodeid := 0 }],
                free_limit := 4 }] }

/-- Fixture: one node holding only one fully free slab. -/
def c10free : CacheState :=
  { nodes := [{ emptyL3 with
                slabsFree := [{ id := 1, colouroff := 0, inuse := 0,
                                free := [0, 1], nodeid := 0 }],
                free_objects := 2, free_limit := 4 }] }

/-- Witness for C10: with a full slab present the shrink reports leftovers,
destruction fails and the cache stays in the registry; with only a free
slab the shrink is clean, the free slab is destroyed, and destruction
removes the cache from the registry. -/
theorem C10_witness :
    (cache_shrink_core c10cache.num c10full []).2.2 = true ∧
    (kmem_cache_destroy c10cache [c10cache] c10full []).failed = true ∧
    c10cache ∈ (kmem_cache_destroy c10cache [c10cache] c10full []).chain ∧
    (cache_shrink_core c10cache.num c10free []).2.2 = false ∧
    (kmem_cache_destroy c10cache [c10cache] c10free []).live = none ∧
    c10cache ∉ (kmem_cache_destroy c10cache [c10cache] c10free []).chain ∧
    (getNode (cache_shrink_core c10cache.num c10free []).1 0).slabsFree = [] := by
  have T1 := C10_destroy_requires_clean_shrink c10cache [c10cache] c10full []
  have T2 := C10_destroy_requires_clean_shrink c10cache [c10cache] c10free []
  refine ⟨by decide, (T1.1 (by decide)).1, (T1.1 (by decide)).2.2,
    by decide, (T2.2.1 (by decide)).2.1,
    (T2.2.1 (by decide)).2.2 (by decide), ?_⟩
  exact T2.2.2.2 (by decide) 0 (by decide)

/-! ## Claim C9: freeing an object owned by a remote node -/

/-- The alien stash of node n for remote node r. -/
def getAlien (st : CacheState) (n r : Nat) : Option ArrayCache :=
  (getNode st n).alien.getD r none

/-- A getD hit implies the index is in range. -/
theorem getD_some_lt {α : Type} (l : List (Option α)) (n : Nat) (x : α)
    (h : l.getD n none = some x) : n < l.length := by
  by_contra hn
  rw [List.getD_eq_default _ _ (Nat.le_of_not_lt hn)] at h
  exact Option.noConfusion h

/-- Draining an alien array keeps its limit, batch size and touched flag. -/
theorem drain_alien_fields (num : Nat) (rl3 : KmemList3) (al : ArrayCache) :
    (drain_alien_cache_one num rl3 al).2.limit = al.limit ∧
    (drain_alien_cache_one num rl3 al).2.batchcount = al.batchcount ∧
    (drain_alien_cache_one num rl3 al).2.touched = al.touched := by
  unfold drain_alien_cache_one
  by_cases hz : al.entry.length = 0
  · simp only [hz, if_true]
    exact ⟨by trivial, by trivial, by trivial⟩
  · simp only [hz, if_false]
    rcases hsh : rl3.shared with _ | sh
    · exact ⟨by trivial, by trivial, by trivial⟩
    · simp only [transfer_objects]
      split <;> exact ⟨by trivial, by trivial, by trivial⟩

/-- C9: freeing an object whose owning slab lives on another node is taken
over by cache_free_alien, so the freeing core front-end never receives the
object.  With an alien stash present and not full, the object is appended
to that stash and no slab list of any node changes.  With the stash full,
the stash is first drained into the owning node (its remote shared array
and then free_block) and ends holding exactly the freed object, every node
other than the owning one keeping its slab lists.  With no alien stash the
object goes by free_block straight into the owning node lists, all other
nodes untouched.  In no case does the object reach any list of a node that
does not own it. -/
theorem C9_alien_free (num : Nat) (st : CacheState) (node : Nat)
    (ac : ArrayCache) (objp : Obj) (slabp : Slab)
    (hfind : virt_to_slab st objp.1 = some slabp)
    (hne : slabp.nodeid ≠ node)
    (hnode : node < st.nodes.length)
    (hrem : slabp.nodeid < st.nodes.length) :
    (cache_free_alien num st node objp).1 = true ∧
    (cache_free num st node ac objp).2 = ac ∧
    (cache_free num st node ac objp).1 = (cache_free_alien num st node objp).2 ∧
    (∀ al, getAlien st node slabp.nodeid = some al →
      (al.entry.length < al.limit →
        getAlien (cache_free_alien num st node objp).2 node slabp.nodeid =
          some { al with entry := al.entry ++ [objp] } ∧
        (∀ m, (getNode (cache_free_alien num st node objp).2 m).slabsFull =
            (getNode st m).slabsFull ∧
          (getNode (cache_free_alien num st node objp).2 m).slabsPartial =
            (getNode st m).slabsPartial ∧
          (getNode (cache_free_alien num st node objp).2 m).slabsFree =
            (getNode st m).slabsFree)) ∧
      (al.entry.length = al.limit →
        getAlien (cache_free_alien num st node objp).2 node slabp.nodeid =
          some { al with entry := [objp] } ∧
        getNode (cache_free_alien num st node objp).2 slabp.nodeid =
          (drain_alien_cache_one num (getNode st slabp.nodeid) al).1 ∧
        (∀ m, m ≠ slabp.nodeid →
          (getNode (cache_free_alien num st node objp).2 m).slabsFull =
            (getNode st m).slabsFull ∧
          (getNode (cache_free_alien num st node objp).2 m).slabsPartial =
            (getNode st m).slabsPartial ∧
          (getNode (cache_free_alien num st node objp).2 m).slabsFree =
            (getNode st m).slabsFree))) ∧
    (getAlien st node slabp.nodeid = none →
      getNode (cache_free_alien num st node objp).2 slabp.nodeid =
        free_block num (getNode st slabp.nodeid) [objp] ∧
      ∀ m, m ≠ slabp.nodeid →
        getNode (cache_free_alien num st node objp).2 m = getNode st m) := by
  have hfree : (cache_free_alien num st node objp).1 = true := by
    simp only [cache_free_alien, hfind]
    simp only [hne, if_false]
    rcases hal : (getNode st node).alien.getD slabp.nodeid none with _ | al
    · simp
    · simp only []
      split <;> simp
  refine ⟨hfree, ?_, ?_, ?_, ?_⟩
  · simp only [cache_free, hfree, if_true]
  · simp only [cache_free, hfree, if_true]
  · intro al hal
    unfold getAlien at hal
    have hinr : slabp.nodeid < (getNode st node).alien.length :=
      getD_some_lt _ _ _ hal
    constructor
    · intro hlt
      have hcond : ¬al.entry.length = al.limit := by omega
      simp only [cache_free_alien, hfind, hne, if_false, hal, hcond,
        Bool.false_eq_true, if_false]
      constructor
      · unfold getAlien
        rw [getNode_setNode_same _ _ _ hnode]
        simp [List.getD_eq_getElem?_getD, List.getElem?_set_self, hinr]
      · intro m
        by_cases hm : m = node
        · subst hm
          rw [getNode_setNode_same _ _ _ hnode]
          exact ⟨rfl, rfl, rfl⟩
        · rw [getNode_setNode_ne _ _ _ _ hm]
          exact ⟨rfl, rfl, rfl⟩
    · intro heq
      have hdrain2 : (drain_alien_cache_one num (getNode st slabp.nodeid)
          al).2.entry = [] := by
        unfold drain_alien_cache_one
        by_cases hz : al.entry.length = 0
        · simp only [hz, if_true]
          exact List.length_eq_zero.mp hz
        · simp only [hz, if_false]
      simp only [cache_free_alien, hfind, hne, if_false, hal, heq, if_true]
      have hnodeLen2 : node <
          (setNode st slabp.nodeid
            (drain_alien_cache_one num (getNode st slabp.nodeid) al).1).nodes.length := by
        rw [setNode_length]; exact hnode
      refine ⟨?_, ?_, ?_⟩
      · unfold getAlien
        rw [getNode_setNode_same _ _ _ hnodeLen2]
        rw [getNode_setNode_ne _ _ _ _ hne.symm]
        simp [List.getD_eq_getElem?_getD, List.getElem?_set_self, hinr,
          hdrain2, drain_alien_fields]
      · rw [getNode_setNode_ne _ _ _ _ hne, getNode_setNode_same _ _ _ hrem]
      · intro m hm
        by_cases hmn : m = node
        · subst hmn
          rw [getNode_setNode_same _ _ _ hnodeLen2,
            getNode_setNode_ne _ _ _ _ hne.symm]
          exact ⟨rfl, rfl, rfl⟩
        · rw [getNode_setNode_ne _ _ _ _ hmn, getNode_setNode_ne _ _ _ _ hm]
          exact ⟨rfl, rfl, rfl⟩
  · intro hal
    unfold getAlien at hal
    simp only [cache_free_alien, hfind, hne, if_false, hal]
    constructor
    · rw [getNode_setNode_same _ _ _ hrem]
    · intro m hm
      rw [getNode_setNode_ne _ _ _ _ hm]

/-- Fixture: a slab owned by node 1 (two objects, one in use). -/
def c9slab : Slab :=
  { id := 3, colouroff := 0, inuse := 1, free := [1], nodeid := 1 }

/-- Fixture: two nodes; node 0 holds an empty alien stash for node 1, node 1
holds the slab on its list of partly used slabs. -/
def c9st : CacheState :=
  { nodes := [ { emptyL3 with
                 alien := [none, some { entry := [], limit := 2,
                                        batchcount := 1, touched := false }] },
               { emptyL3 with slabsPartial := [c9slab], free_limit := 4 } ] }

/-- Fixture: the freeing core front-end on node 0. -/
def c9ac : ArrayCache :=
  { entry := [(7, 0)], limit := 4, batchcount := 2, touched := false }

/-- Witness for C9: freeing object (3, 0), owned by node 1, from node 0 is
handled by the alien path, leaves the front-end untouched, lands in the
alien stash of node 0 for node 1, and changes no slab list. -/
theorem C9_witness :
    (cache_free_alien 2 c9st 0 (3, 0)).1 = true ∧
    (cache_free 2 c9st 0 c9ac (3, 0)).2 = c9ac ∧
    getAlien (cache_free_alien 2 c9st 0 (3, 0)).2 0 1 =
      some { entry := [(3, 0)], limit := 2, batchcount := 1,
             touched := false } ∧
    (getNode (cache_free_alien 2 c9st 0 (3, 0)).2 1).slabsPartial =
      (getNode c9st 1).slabsPartial := by
  have T := C9_alien_free 2 c9st 0 c9ac (3, 0) c9slab (by decide) (by decide)
    (by decide) (by decide)
  refine ⟨T.1, T.2.1, ?_, ?_⟩
  · exact (T.2.2.2.1
      { entry := [], limit := 2, batchcount := 1, touched := false }
      (by decide)).1 (by decide) |>.1
  · exact ((T.2.2.2.1
      { entry := [], limit := 2, batchcount := 1, touched := false }
      (by decide)).1 (by decide) |>.2 1).2.1

/-! ## Claim C8: constructor runs at growth only -/

/-- Growth changes object memory only at the slots of the fresh slab, and
every constructor invocation it logs is on a fresh-slab slot. -/
theorem cache_grow_mem (c : KmemCache) (l3 : KmemList3) (nodeid : Nat)
    (pageOK : Bool) (newId : Nat) (mem : Mem) (o : Obj) (ho : o.1 ≠ newId) :
    (cache_grow c l3 nodeid pageOK newId mem).2.2.1 o = mem o ∧
    ∀ e ∈ (cache_grow c l3 nodeid pageOK newId mem).2.2.2, e.1 = newId := by
  unfold cache_grow
  split
  · exact ⟨rfl, by simp⟩
  · unfold cache_init_objs alloc_slabmgmt
    rcases hc : c.ctor with _ | v
    · exact ⟨rfl, by simp⟩
    · constructor
      · simp only []
        rw [if_neg]
        intro hcon
        exact ho hcon.1
      · intro e he
        simp only [List.mem_map] at he
        obtain ⟨i, _, hei⟩ := he
        rw [← hei]

/-- The refill loop changes object memory only at fresh-slab slots and logs
constructor calls only on them. -/
theorem refill_go_mem (c : KmemCache) (nodeid : Nat) (pageOK : Bool)
    (newId : Nat) :
    ∀ (retries : Nat) (l3 : KmemList3) (ac : ArrayCache) (mem : Mem)
      (log : List Obj) (o : Obj), o.1 ≠ newId →
    (cache_alloc_refill_go c l3 ac nodeid pageOK newId mem log
        retries).2.2.2.1 o = mem o ∧
    ∀ e ∈ (cache_alloc_refill_go c l3 ac nodeid pageOK newId mem log
        retries).2.2.2.2, e ∈ log ∨ e.1 = newId := by
  intro retries
  induction retries with
  | zero =>
    intro l3 ac mem log o ho
    exact ⟨rfl, fun e he => Or.inl he⟩
  | succ retries ih =>
    intro l3 ac mem log o ho
    rcases hsh : l3.shared with _ | sh
    · simp only [cache_alloc_refill_go, hsh]
      rw [if_neg (by decide : ¬((0 : Nat) ≠ 0))]
      generalize (if ¬ac.touched = true ∧ BATCHREFILL_LIMIT < ac.batchcount
        then BATCHREFILL_LIMIT else ac.batchcount) = bc
      split
      · split
        · refine ⟨(cache_grow_mem c _ nodeid pageOK newId mem o ho).1, ?_⟩
          intro e he
          rcases List.mem_append.mp he with h | h
          · exact Or.inl h
          · exact Or.inr ((cache_grow_mem c _ nodeid pageOK newId mem o
              ho).2 e h)
        · refine ⟨(ih _ _ _ _ o ho).1.trans
            (cache_grow_mem c _ nodeid pageOK newId mem o ho).1, ?_⟩
          intro e he
          rcases (ih _ _ _ _ o ho).2 e he with h | h
          · rcases List.mem_append.mp h with h2 | h2
            · exact Or.inl h2
            · exact Or.inr ((cache_grow_mem c _ nodeid pageOK newId mem o
                ho).2 e h2)
          · exact Or.inr h
      · exact ⟨rfl, fun e he => Or.inl he⟩
    · simp only [cache_alloc_refill_go, hsh]
      generalize (if ¬ac.touched = true ∧ BATCHREFILL_LIMIT < ac.batchcount
        then BATCHREFILL_LIMIT else ac.batchcount) = bc
      split
      · exact ⟨rfl, fun e he => Or.inl he⟩
      · split
        · split
          · refine ⟨(cache_grow_mem c _ nodeid pageOK newId mem o ho).1, ?_⟩
            intro e he
            rcases List.mem_append.mp he with h | h
            · exact Or.inl h
            · exact Or.inr ((cache_grow_mem c _ nodeid pageOK newId mem o
                ho).2 e h)
          · refine ⟨(ih _ _ _ _ o ho).1.trans
              (cache_grow_mem c _ nodeid pageOK newId mem o ho).1, ?_⟩
            intro e he
            rcases (ih _ _ _ _ o ho).2 e he with h | h
            · rcases List.mem_append.mp h with h2 | h2
              · exact Or.inl h2
              · exact Or.inr ((cache_grow_mem c _ nodeid pageOK newId mem o
                  ho).2 e h2)
            · exact Or.inr h
        · exact ⟨rfl, fun e he => Or.inl he⟩

/-- C8: a configured constructor runs exactly once per object slot when a
slab is initialised at growth time, writing the constructed content; the
allocation fast path never constructs and never writes object memory; the
whole allocation path (refill and growth included) constructs only slots of
the freshly grown slab, so any pre-existing object keeps its memory
untouched; hence an object freed earlier (the free path writes only bufctl
links and counters, never object bytes) and handed out again by a later
allocation still holds the content it was freed with, not freshly
constructed state. -/
theorem C8_ctor_once_at_grow (c : KmemCache) (v : Nat) (hc : c.ctor = some v) :
    (∀ (slabp : Slab) (mem : Mem),
      (∀ i, i < c.num → (slabp.id, i) ∈ (cache_init_objs c slabp mem).2.2) ∧
      ((cache_init_objs c slabp mem).2.2).Nodup ∧
      (∀ o : Obj, o ∈ (cache_init_objs c slabp mem).2.2 →
        o.1 = slabp.id ∧ o.2 < c.num) ∧
      (∀ i, i < c.num →
        (cache_init_objs c slabp mem).2.1 (slabp.id, i) = v)) ∧
    (∀ (l3 : KmemList3) (ac : ArrayCache) (nodeid : Nat) (pageOK : Bool)
        (newId : Nat) (mem : Mem), ac.entry ≠ [] →
      (cache_alloc c l3 ac nodeid pageOK newId mem).2.2.2.1 = mem ∧
      (cache_alloc c l3 ac nodeid pageOK newId mem).2.2.2.2 = []) ∧
    (∀ (l3 : KmemList3) (ac : ArrayCache) (nodeid : Nat) (pageOK : Bool)
        (newId : Nat) (mem : Mem) (o : Obj), o.1 ≠ newId →
      (cache_alloc c l3 ac nodeid pageOK newId mem).2.2.2.1 o = mem o ∧
      o ∉ (cache_alloc c l3 ac nodeid pageOK newId mem).2.2.2.2) ∧
    (∀ (l3 : KmemList3) (ac : ArrayCache) (nodeid : Nat) (pageOK : Bool)
        (newId : Nat) (mem : Mem) (o : Obj),
      (cache_alloc c l3 ac nodeid pageOK newId mem).1 = some o →
      o.1 ≠ newId →
      (cache_alloc c l3 ac nodeid pageOK newId mem).2.2.2.1 o = mem o) := by
  have halloc : ∀ (l3 : KmemList3) (ac : ArrayCache) (nodeid : Nat)
      (pageOK : Bool) (newId : Nat) (mem : Mem) (o : Obj), o.1 ≠ newId →
      (cache_alloc c l3 ac nodeid pageOK newId mem).2.2.2.1 o = mem o ∧
      o ∉ (cache_alloc c l3 ac nodeid pageOK newId mem).2.2.2.2 := by
    intro l3 ac nodeid pageOK newId mem o ho
    unfold cache_alloc
    split
    · exact ⟨rfl, by simp⟩
    · have h := refill_go_mem c nodeid pageOK newId 2 l3 ac mem [] o ho
      refine ⟨h.1, ?_⟩
      intro hmem
      rcases h.2 o hmem with h2 | h2
      · exact absurd h2 (List.not_mem_nil o)
      · exact ho h2
  refine ⟨?_, ?_, halloc, ?_⟩
  · intro slabp mem
    have heq : cache_init_objs c slabp mem =
        ({ slabp with free := List.range c.num },
         fun o => if o.1 = slabp.id ∧ o.2 < c.num then v else mem o,
         (List.range c.num).map (fun i => ((slabp.id, i) : Obj))) := by
      unfold cache_init_objs
      rw [hc]
    rw [heq]
    refine ⟨?_, ?_, ?_, ?_⟩
    · intro i hi
      exact List.mem_map.mpr ⟨i, List.mem_range.mpr hi, rfl⟩
    · refine List.Nodup.map ?_ (List.nodup_range c.num)
      intro a b hab
      simpa using congrArg Prod.snd hab
    · intro o hmem
      obtain ⟨j, hj, hjo⟩ := List.mem_map.mp hmem
      rw [← hjo]
      exact ⟨rfl, List.mem_range.mp hj⟩
    · intro i hi
      simp [hi]
  · intro l3 ac nodeid pageOK newId mem hne
    unfold cache_alloc
    rw [if_pos]
    · exact ⟨rfl, rfl⟩
    · simpa using hne
  · intro l3 ac nodeid pageOK newId mem o _ ho
    exact (halloc l3 ac nodeid pageOK newId mem o ho).1

/-- Witness for C8: a two-object cache with constructor value 7; slab
initialisation constructs each slot exactly once, the fast path constructs
nothing, and an allocation that recycles an existing object leaves its
memory alone. -/
theorem C8_witness :
    ({ num := 2, gfporder := 0, buffer_size := 64, align := 4, colour := 0,
       colour_off := 32, slab_size := 40, flags := {},
       ctor := some 7 } : KmemCache).ctor = some 7 ∧
    (4, 0) ∈ (cache_init_objs
      { num := 2, gfporder := 0, buffer_size := 64, align := 4, colour := 0,
        colour_off := 32, slab_size := 40, flags := {}, ctor := some 7 }
      { id := 4, colouroff := 0, inuse := 0, free := [], nodeid := 0 }
      mem0).2.2 ∧
    ((cache_init_objs
      { num := 2, gfporder := 0, buffer_size := 64, align := 4, colour := 0,
        colour_off := 32, slab_size := 40, flags := {}, ctor := some 7 }
      { id := 4, colouroff := 0, inuse := 0, free := [], nodeid := 0 }
      mem0).2.2).Nodup ∧
    (cache_alloc
      { num := 2, gfporder := 0, buffer_size := 64, align := 4, colour := 0,
        colour_off := 32, slab_size := 40, flags := {}, ctor := some 7 }
      emptyL3 { entry := [(4, 1)], limit := 4, batchcount := 1,
                touched := false }
      0 false 9 mem0).2.2.2.1 (4, 1) = mem0 (4, 1) := by
  refine ⟨rfl, ?_, ?_, ?_⟩
  · exact ((C8_ctor_once_at_grow
      { num := 2, gfporder := 0, buffer_size := 64, align := 4, colour := 0,
        colour_off := 32, slab_size := 40, flags := {}, ctor := some 7 }
      7 rfl).1
      { id := 4, colouroff := 0, inuse := 0, free := [], nodeid := 0 }
      mem0).1 0 (by decide)
  · exact ((C8_ctor_once_at_grow
      { num := 2, gfporder := 0, buffer_size := 64, align := 4, colour := 0,
        colour_off := 32, slab_size := 40, flags := {}, ctor := some 7 }
      7 rfl).1
      { id := 4, colouroff := 0, inuse := 0, free := [], nodeid := 0 }
      mem0).2.1
  · exact ((C8_ctor_once_at_grow
      { num := 2, gfporder := 0, buffer_size := 64, align := 4, colour := 0,
        colour_off := 32, slab_size := 40, flags := {}, ctor := some 7 }
      7 rfl).2.2.1 emptyL3
      { entry := [(4, 1)], limit := 4, batchcount := 1, touched := false }
      0 false 9 mem0 (4, 1) (by decide)).1

/-! ## The inner pull loop of the refill -/

/-- slab_pull takes min(num - inuse, batchcount) objects off the head of
the free chain one at a time, raising inuse accordingly and leaving the
rest of the chain; the pulled objects are the taken chain prefix in order.
Requires the slab book-keeping identity inuse + |free| = num. -/
theorem slab_pull_spec (c : KmemCache) :
    ∀ (bc : Nat) (slabp : Slab) (acc : List Obj),
    slabp.inuse + slabp.free.length = c.num →
    slab_pull c slabp bc acc =
      ({ slabp with inuse := slabp.inuse + min (c.num - slabp.inuse) bc,
                    free := slabp.free.drop (min (c.num - slabp.inuse) bc) },
       bc - min (c.num - slabp.inuse) bc,
       acc ++ (slabp.free.take (min (c.num - slabp.inuse) bc)).map
         (fun j => (slabp.id, j))) := by
  intro bc
  induction bc with
  | zero =>
    intro slabp acc hwf
    unfold slab_pull
    simp only [Nat.min_zero, Nat.add_zero, List.drop_zero, List.take_zero,
      List.map_nil, List.append_nil, Nat.sub_zero]
    split <;> rfl
  | succ bc ih =>
    intro slabp acc hwf
    unfold slab_pull
    by_cases hlt : slabp.inuse < c.num
    · rw [if_pos hlt]
      rcases hfree : slabp.free with _ | ⟨f, rest⟩
      · rw [hfree] at hwf
        simp at hwf
        omega
      · have hget : slab_get_obj slabp =
            ((slabp.id, f),
             { slabp with inuse := slabp.inuse + 1, free := rest }) := by
          unfold slab_get_obj
          rw [hfree]
        simp only [hget]
        have hwf2 : slabp.inuse + 1 + rest.length = c.num := by
          rw [hfree] at hwf
          simp at hwf
          omega
        rw [ih _ _ hwf2]
        have hm : min (c.num - slabp.inuse) (bc + 1) =
            min (c.num - (slabp.inuse + 1)) bc + 1 := by omega
        dsimp only
        rw [hm]
        simp only [List.drop_succ_cons, List.take_succ_cons, List.map_cons,
          Prod.mk.injEq, Slab.mk.injEq]
        refine ⟨⟨by trivial, by trivial, by omega, by trivial, by trivial⟩,
          by omega, by simp⟩
    · rw [if_neg hlt]
      have hz : c.num - slabp.inuse = 0 := by omega
      simp only [hz, Nat.zero_min, Nat.add_zero, List.drop_zero,
        List.take_zero, List.map_nil, List.append_nil, Nat.sub_zero]

/-- The outer walk stops as soon as the batch count is exhausted. -/
theorem refill_walk_zero_bc (c : KmemCache) :
    ∀ (fuel : Nat) (acc : List Obj) (l3 : KmemList3),
    refill_walk c fuel 0 acc l3 = (acc, l3) := by
  intro fuel acc l3
  cases fuel <;> rfl

/-- With both slab lists empty the walk only marks free_touched (the source
sets it on the way to the free list) when it runs at all. -/
theorem refill_walk_empty (c : KmemCache) :
    ∀ (fuel bc : Nat) (acc : List Obj) (l3 : KmemList3),
    l3.slabsPartial = [] → l3.slabsFree = [] →
    refill_walk c fuel bc acc l3 = (acc, l3) ∨
    refill_walk c fuel bc acc l3 = (acc, { l3 with free_touched := true }) := by
  intro fuel bc acc l3 hp hf
  cases fuel with
  | zero => exact Or.inl rfl
  | succ fuel =>
    by_cases hbc : bc = 0
    · subst hbc
      exact Or.inl (refill_walk_zero_bc c _ acc l3)
    · right
      unfold refill_walk
      rw [if_neg hbc, hp, hf]

/-- One partly used slab at the head of the list that can cover the whole
batch: the walk pulls exactly the batch off the head of its free chain and
relinks the slab. -/
theorem refill_walk_single (c : KmemCache) (l3 : KmemList3) (slabp : Slab)
    (rest : List Slab) (bc : Nat)
    (hpart : l3.slabsPartial = slabp :: rest)
    (hwf : slabp.inuse + slabp.free.length = c.num)
    (hbc : 1 ≤ bc) (hle : bc ≤ c.num - slabp.inuse) :
    refill_walk c bc bc [] l3 =
      ((slabp.free.take bc).map (fun j => (slabp.id, j)),
       refill_relink { l3 with slabsPartial := rest }
         { slabp with inuse := slabp.inuse + bc,
                      free := slabp.free.drop bc }) := by
  rcases bc with _ | b
  · omega
  · unfold refill_walk
    rw [if_neg (by omega : ¬(b + 1 = 0)), hpart]
    have hmin : min (c.num - slabp.inuse) (b + 1) = b + 1 := by omega
    dsimp only
    rw [slab_pull_spec c (b + 1) slabp [] hwf]
    dsimp only
    rw [hmin]
    simp only [Nat.sub_self, List.nil_append]
    rw [refill_walk_zero_bc]

/-- With both slab lists empty and a positive batch the walk does nothing
but mark free_touched (must_grow). -/
theorem refill_walk_empty_pos (c : KmemCache) (fuel bc : Nat) (acc : List Obj)
    (l3 : KmemList3) (hp : l3.slabsPartial = []) (hf : l3.slabsFree = [])
    (hfuel : fuel ≠ 0) (hbc : bc ≠ 0) :
    refill_walk c fuel bc acc l3 = (acc, { l3 with free_touched := true }) := by
  rcases fuel with _ | fuel
  · exact absurd rfl hfuel
  · unfold refill_walk
    rw [if_neg hbc, hp]
    dsimp only
    rw [hf]

/-- No partly used slab and exactly one free slab that can cover the whole
batch: the walk marks free_touched, pulls the batch off the free slab and
relinks it. -/
theorem refill_walk_free_single (c : KmemCache) (l3 : KmemList3) (s : Slab)
    (bc : Nat)
    (hp : l3.slabsPartial = []) (hf : l3.slabsFree = [s])
    (hwf : s.inuse + s.free.length = c.num)
    (hbc : 1 ≤ bc) (hle : bc ≤ c.num - s.inuse) :
    refill_walk c bc bc [] l3 =
      ((s.free.take bc).map (fun j => (s.id, j)),
       refill_relink { l3 with slabsFree := [], free_touched := true }
         { s with inuse := s.inuse + bc, free := s.free.drop bc }) := by
  rcases bc with _ | b
  · omega
  · unfold refill_walk
    rw [if_neg (by omega : ¬(b + 1 = 0)), hp]
    dsimp only
    rw [hf]
    have hmin : min (c.num - s.inuse) (b + 1) = b + 1 := by omega
    dsimp only
    rw [slab_pull_spec c (b + 1) s [] hwf]
    dsimp only
    rw [hmin]
    simp only [Nat.sub_self, List.nil_append]
    rw [refill_walk_zero_bc]

/-- transfer_objects from an empty source moves nothing. -/
theorem transfer_objects_empty_src (ta fr : ArrayCache) (mx : Nat)
    (he : fr.entry = []) : transfer_objects ta fr mx = (ta, fr, 0) := by
  unfold transfer_objects
  rw [he]
  simp

/-- Writing back the value the shared field already holds is the identity. -/
theorem shared_eta (l3 : KmemList3) (sh : ArrayCache)
    (hsh : l3.shared = some sh) : { l3 with shared := some sh } = l3 := by
  cases l3
  cases hsh
  rfl

/-- The slab built by cache_init_objs, independent of the constructor. -/
theorem cache_init_objs_fst (c : KmemCache) (s : Slab) (mem : Mem) :
    (cache_init_objs c s mem).1 = { s with free := List.range c.num } := by
  unfold cache_init_objs
  cases c.ctor <;> rfl

/-- transfer_objects into an empty destination moves the top nr entries of
the source when nr is not zero. -/
theorem transfer_objects_to_empty (ta fr : ArrayCache) (mx nr : Nat)
    (hta : ta.entry = [])
    (hnr : min (min fr.entry.length mx) ta.limit = nr) (hnz : nr ≠ 0) :
    transfer_objects ta fr mx =
      ({ ta with entry := fr.entry.drop (fr.entry.length - nr),
                 touched := true },
       { fr with entry := fr.entry.take (fr.entry.length - nr) }, nr) := by
  unfold transfer_objects
  rw [hta]
  simp only [List.length_nil, Nat.sub_zero, List.nil_append]
  rw [hnr, if_neg hnz]

/-- Relinking after a pull sorts by inuse: a fully used slab goes to the
head of the full list, a partly used one to the head of the partly-used
list. -/
theorem refill_relink_by_inuse (c : KmemCache) (l3x : KmemList3)
    (slabx : Slab) (hwfx : slabx.inuse + slabx.free.length = c.num) :
    refill_relink l3x slabx =
      if slabx.inuse = c.num then
        { l3x with slabsFull := slabx :: l3x.slabsFull }
      else
        { l3x with slabsPartial := slabx :: l3x.slabsPartial } := by
  unfold refill_relink
  by_cases h : slabx.free = []
  · have hin : slabx.inuse = c.num := by
      rw [h] at hwfx
      simpa using hwfx
    rw [if_pos h, if_pos hin]
  · have hin : ¬slabx.inuse = c.num := by
      have hl : slabx.free.length ≠ 0 :=
        fun hc => h (List.eq_nil_of_length_eq_zero hc)
      omega
    rw [if_neg h, if_neg hin]

/-- Refill pulls from the shared array first: with an empty cpu array and a
shared array holding something transferable, the batch (capped by the
effective batch count and the cpu array room) moves from the top of the
shared array into the cpu array, the last moved entry is returned, and the
slab lists, object memory and ctor log are untouched. -/
theorem refill_shared_first (c : KmemCache) (l3 : KmemList3)
    (sh ac : ArrayCache) (nodeid : Nat) (pageOK : Bool) (newId : Nat)
    (mem : Mem) (ebc nr : Nat)
    (hac : ac.entry = [])
    (hsh : l3.shared = some sh)
    (hebc : (if ¬ac.touched = true ∧ BATCHREFILL_LIMIT < ac.batchcount then
               BATCHREFILL_LIMIT else ac.batchcount) = ebc)
    (hnr : min (min sh.entry.length ebc) ac.limit = nr)
    (hnz : nr ≠ 0) :
    nr ≤ ac.batchcount ∧
    cache_alloc_refill c l3 ac nodeid pageOK newId mem =
      ((sh.entry.drop (sh.entry.length - nr)).getLast?,
       { l3 with
         shared := some { sh with
                          entry := sh.entry.take (sh.entry.length - nr) } },
       { ac with entry := (sh.entry.drop (sh.entry.length - nr)).dropLast,
                 touched := true },
       mem, []) := by
  constructor
  · rw [← hnr, ← hebc]
    split
    · next h =>
      have h2 := h.2
      simp only [BATCHREFILL_LIMIT] at h2 ⊢
      omega
    · omega
  · have hgo : cache_alloc_refill c l3 ac nodeid pageOK newId mem
        = cache_alloc_refill_go c l3 ac nodeid pageOK newId mem [] (1 + 1) :=
      rfl
    rw [hgo]
    simp only [cache_alloc_refill_go, hsh]
    rw [hebc]
    rw [transfer_objects_to_empty ac sh ebc nr hac hnr hnz]
    dsimp only
    rw [if_pos hnz]

/-- cache_grow without page backing: the colour rotation still advances,
nothing else changes, and the failure flag comes back. -/
theorem cache_grow_fail (c : KmemCache) (l3 : KmemList3)
    (nodeid newId : Nat) (mem : Mem) :
    cache_grow c l3 nodeid false newId mem =
      (false,
       { l3 with colour_next :=
           if c.colour ≤ l3.colour_next + 1 then 0 else l3.colour_next + 1 },
       mem, []) := by
  unfold cache_grow
  dsimp only
  rw [if_pos (by decide : ¬(false = true))]

/-- cache_grow with page backing: the colour rotation advances and a fresh
fully free slab carrying the colour offset is appended to the free list. -/
theorem cache_grow_ok (c : KmemCache) (l3 : KmemList3)
    (nodeid newId : Nat) (mem : Mem) :
    cache_grow c l3 nodeid true newId mem =
      (true,
       { l3 with
         colour_next :=
             (if c.colour ≤ l3.colour_next + 1 then 0 else l3.colour_next + 1),
         slabsFree :=
             l3.slabsFree ++
               [{ id := newId,
                  colouroff := l3.colour_next * c.colour_off +
                      (if c.flags.off_slab then 0 else c.slab_size),
                  inuse := 0, free := List.range c.num, nodeid := nodeid }],
         free_objects := l3.free_objects + c.num },
       (cache_init_objs c
         (alloc_slabmgmt c newId (l3.colour_next * c.colour_off) nodeid)
         mem).2.1,
       (cache_init_objs c
         (alloc_slabmgmt c newId (l3.colour_next * c.colour_off) nodeid)
         mem).2.2) := by
  unfold cache_grow
  dsimp only
  rw [if_neg (by decide : ¬¬(true = true))]
  rw [cache_init_objs_fst]
  dsimp only [alloc_slabmgmt]

/-- One refill iteration on an empty cpu array, with nothing transferable
from the shared array and both slab lists empty, reaches must_grow: it grows
and, on success, retries with one fewer retry. -/
theorem refill_go_step_must_grow (c : KmemCache) (l3 : KmemList3)
    (ac : ArrayCache) (nodeid newId : Nat) (mem : Mem) (log : List Obj)
    (retries : Nat) (pageOK : Bool) (ebc : Nat)
    (hac : ac.entry = [])
    (hshar : ∀ sh, l3.shared = some sh → sh.entry = [])
    (hebc : (if ¬ac.touched = true ∧ BATCHREFILL_LIMIT < ac.batchcount then
               BATCHREFILL_LIMIT else ac.batchcount) = ebc)
    (hp : l3.slabsPartial = []) (hf : l3.slabsFree = [])
    (hebc1 : ebc ≠ 0) :
    cache_alloc_refill_go c l3 ac nodeid pageOK newId mem log (retries + 1) =
      (if ¬(cache_grow c { l3 with free_touched := true } nodeid pageOK newId
              mem).1 then
        (none,
         (cache_grow c { l3 with free_touched := true } nodeid pageOK newId
           mem).2.1,
         ac,
         (cache_grow c { l3 with free_touched := true } nodeid pageOK newId
           mem).2.2.1,
         log ++ (cache_grow c { l3 with free_touched := true } nodeid pageOK
           newId mem).2.2.2)
      else
        cache_alloc_refill_go c
          (cache_grow c { l3 with free_touched := true } nodeid pageOK newId
            mem).2.1
          ac nodeid pageOK newId
          (cache_grow c { l3 with free_touched := true } nodeid pageOK newId
            mem).2.2.1
          (log ++ (cache_grow c { l3 with free_touched := true } nodeid
            pageOK newId mem).2.2.2)
          retries) := by
  rcases hsh : l3.shared with _ | sh
  · simp only [cache_alloc_refill_go, hsh]
    rw [hebc]
    rw [if_neg (by decide : ¬((0 : Nat) ≠ 0))]
    rw [refill_walk_empty_pos c ebc ebc [] l3 hp hf hebc1 hebc1]
    dsimp only
    rw [hac]
    simp only [List.append_nil, List.length_nil, Nat.sub_zero]
    rw [if_pos trivial]
    have hace : ({ ac with entry := ([] : List Obj) }) = ac := by
      rw [← hac]
    rw [hace, hsh]
  · have he := hshar sh hsh
    simp only [cache_alloc_refill_go, hsh]
    rw [hebc]
    rw [transfer_objects_empty_src ac sh ebc he]
    dsimp only
    rw [if_neg (by decide : ¬((0 : Nat) ≠ 0))]
    rw [shared_eta l3 sh hsh]
    rw [refill_walk_empty_pos c ebc ebc [] l3 hp hf hebc1 hebc1]
    dsimp only
    rw [hac]
    simp only [List.append_nil, List.length_nil, Nat.sub_zero]
    rw [if_pos trivial]
    have hace : ({ ac with entry := ([] : List Obj) }) = ac := by
      rw [← hac]
    rw [hace, hsh]

/-- When the cpu array is empty, the shared array has nothing to give and
both slab lists are exhausted, refill must grow: without page backing the
allocation returns none; with page backing one slab is grown and the retry
serves the last of the batch pulled from it, an object of the new slab. -/
theorem refill_grow_outcome (c : KmemCache) (l3 : KmemList3)
    (ac : ArrayCache) (nodeid newId : Nat) (mem : Mem) (ebc : Nat)
    (hac : ac.entry = [])
    (hp : l3.slabsPartial = []) (hf : l3.slabsFree = [])
    (hshar : ∀ sh, l3.shared = some sh → sh.entry = [])
    (hebc : (if ¬ac.touched = true ∧ BATCHREFILL_LIMIT < ac.batchcount then
               BATCHREFILL_LIMIT else ac.batchcount) = ebc)
    (hbc1 : 1 ≤ ac.batchcount) (hbcn : ac.batchcount ≤ c.num) :
    (cache_alloc_refill c l3 ac nodeid false newId mem).1 = none ∧
    (cache_alloc_refill c l3 ac nodeid true newId mem).1 =
      some (newId, ebc - 1) := by
  have hebc1 : ebc ≠ 0 := by
    rw [← hebc]
    split
    · next h =>
      simp only [BATCHREFILL_LIMIT]
      omega
    · omega
  have hebcn : ebc ≤ c.num := by
    rw [← hebc]
    split
    · next h =>
      have h2 := h.2
      simp only [BATCHREFILL_LIMIT] at h2 ⊢
      omega
    · omega
  constructor
  · have hgo : cache_alloc_refill c l3 ac nodeid false newId mem
        = cache_alloc_refill_go c l3 ac nodeid false newId mem [] (1 + 1) :=
      rfl
    rw [hgo]
    rw [refill_go_step_must_grow c l3 ac nodeid newId mem [] 1 false ebc hac
      hshar hebc hp hf hebc1]
    rw [cache_grow_fail]
    rfl
  · have hgo : cache_alloc_refill c l3 ac nodeid true newId mem
        = cache_alloc_refill_go c l3 ac nodeid true newId mem [] (1 + 1) :=
      rfl
    rw [hgo]
    rw [refill_go_step_must_grow c l3 ac nodeid newId mem [] 1 true ebc hac
      hshar hebc hp hf hebc1]
    rw [cache_grow_ok]
    rw [if_neg (by decide : ¬¬(true = true))]
    dsimp only
    simp only [List.nil_append]
    generalize (cache_init_objs c
      (alloc_slabmgmt c newId (l3.colour_next * c.colour_off) nodeid)
      mem).2.2 = log2
    generalize (cache_init_objs c
      (alloc_slabmgmt c newId (l3.colour_next * c.colour_off) nodeid)
      mem).2.1 = mem2
    generalize (l3.colour_next * c.colour_off +
      if c.flags.off_slab = true then 0 else c.slab_size) = co
    generalize (if c.colour ≤ l3.colour_next + 1 then 0
      else l3.colour_next + 1) = cn
    obtain ⟨e, rfl⟩ : ∃ e, ebc = e + 1 := ⟨ebc - 1, by omega⟩
    simp only [cache_alloc_refill_go]
    rw [hebc]
    rcases hsh : l3.shared with _ | sh
    · simp only [hsh]
      rw [if_neg (by decide : ¬((0 : Nat) ≠ 0))]
      rw [← hsh]
      rw [refill_walk_free_single c
        { slabsFull := l3.slabsFull, slabsPartial := l3.slabsPartial,
          slabsFree := l3.slabsFree ++
            [{ id := newId, colouroff := co, inuse := 0,
               free := List.range c.num, nodeid := nodeid }],
          free_objects := l3.free_objects + c.num,
          free_limit := l3.free_limit, shared := l3.shared,
          alien := l3.alien, colour_next := cn, free_touched := true }
        { id := newId, colouroff := co, inuse := 0,
          free := List.range c.num, nodeid := nodeid }
        (e + 1) hp (by rw [hf, List.nil_append]) (by simp) (by omega)
        (by show e + 1 ≤ c.num - 0; omega)]
      dsimp only
      rw [hac]
      simp only [List.nil_append]
      rw [List.take_range]
      rw [show min (e + 1) c.num = e + 1 from by omega]
      rw [List.range_succ, List.map_append]
      rw [if_neg (by simp)]
      dsimp only
      simp only [List.map_cons, List.map_nil]
      rw [List.getLast?_concat]
      simp
    · have he := hshar sh hsh
      simp only [hsh]
      rw [transfer_objects_empty_src ac sh (e + 1) he]
      dsimp only
      rw [if_neg (by decide : ¬((0 : Nat) ≠ 0))]
      rw [← hsh]
      rw [refill_walk_free_single c
        { slabsFull := l3.slabsFull, slabsPartial := l3.slabsPartial,
          slabsFree := l3.slabsFree ++
            [{ id := newId, colouroff := co, inuse := 0,
               free := List.range c.num, nodeid := nodeid }],
          free_objects := l3.free_objects + c.num,
          free_limit := l3.free_limit, shared := l3.shared,
          alien := l3.alien, colour_next := cn, free_touched := true }
        { id := newId, colouroff := co, inuse := 0,
          free := List.range c.num, nodeid := nodeid }
        (e + 1) hp (by rw [hf, List.nil_append]) (by simp) (by omega)
        (by show e + 1 ≤ c.num - 0; omega)]
      dsimp only
      rw [hac]
      simp only [List.nil_append]
      rw [List.take_range]
      rw [show min (e + 1) c.num = e + 1 from by omega]
      rw [List.range_succ, List.map_append]
      rw [if_neg (by simp)]
      dsimp only
      simp only [List.map_cons, List.map_nil]
      rw [List.getLast?_concat]
      simp

/-! ## Claim C2: refill behaviour -/

/-- Fixture cache for the C2 witness: two objects per slab. -/
def c2c : KmemCache :=
  { num := 2, gfporder := 0, buffer_size := 64, align := 8, colour := 1,
    colour_off := 32, slab_size := 32, flags := {}, ctor := none }

/-- Fixture shared array holding two objects of slab 5. -/
def c2sh : ArrayCache :=
  { entry := [(5, 0), (5, 1)], limit := 4, batchcount := 2, touched := false }

/-- Fixture empty cpu array. -/
def c2ac : ArrayCache :=
  { entry := [], limit := 4, batchcount := 2, touched := false }

/-- Fixture node list-set with a populated shared array. -/
def c2l3 : KmemList3 := { emptyL3 with shared := some c2sh }

/-- Fixture slab with one object in use and one free slot. -/
def c2slab : Slab :=
  { id := 7, colouroff := 0, inuse := 1, free := [1], nodeid := 0 }

/-- Fixture node list-set with one partly used slab. -/
def c2l3b : KmemList3 := { emptyL3 with slabsPartial := [c2slab] }

/-- Fixture fully used slab for the relink conjunct. -/
def c2slabx : Slab :=
  { id := 8, colouroff := 0, inuse := 2, free := [], nodeid := 0 }

/-- C2: refill, called with an empty cpu front-end, first moves a batch of
at most batchcount objects from the shared array into the front-end when
the shared array holds something, touching no slab list and returning the
last moved entry; only with nothing transferable does it walk the
partly-used then the free slab list, pulling free objects one at a time off
the head slab (raising inuse, shrinking the free chain) and relinking the
slab to the full list exactly when it becomes fully used; with both lists
exhausted and the front-end still empty it grows one slab and retries,
serving an object of the new slab, and when growth fails the allocation
returns none. -/
theorem C2_refill_behaviour (c : KmemCache) :
    (∀ (l3 : KmemList3) (sh ac : ArrayCache) (nodeid : Nat) (pageOK : Bool)
       (newId : Nat) (mem : Mem) (ebc nr : Nat),
       ac.entry = [] → l3.shared = some sh →
       (if ¬ac.touched = true ∧ BATCHREFILL_LIMIT < ac.batchcount then
          BATCHREFILL_LIMIT else ac.batchcount) = ebc →
       min (min sh.entry.length ebc) ac.limit = nr → nr ≠ 0 →
       nr ≤ ac.batchcount ∧
       cache_alloc_refill c l3 ac nodeid pageOK newId mem =
         ((sh.entry.drop (sh.entry.length - nr)).getLast?,
          { l3 with
            shared := some { sh with
                             entry := sh.entry.take (sh.entry.length - nr) } },
          { ac with entry := (sh.entry.drop (sh.entry.length - nr)).dropLast,
                    touched := true },
          mem, [])) ∧
    (∀ (l3 : KmemList3) (slabp : Slab) (rest : List Slab) (bc : Nat),
       l3.slabsPartial = slabp :: rest →
       slabp.inuse + slabp.free.length = c.num →
       1 ≤ bc → bc ≤ c.num - slabp.inuse →
       refill_walk c bc bc [] l3 =
         ((slabp.free.take bc).map (fun j => (slabp.id, j)),
          refill_relink { l3 with slabsPartial := rest }
            { slabp with inuse := slabp.inuse + bc,
                         free := slabp.free.drop bc })) ∧
    (∀ (l3x : KmemList3) (slabx : Slab),
       slabx.inuse + slabx.free.length = c.num →
       refill_relink l3x slabx =
         if slabx.inuse = c.num then
           { l3x with slabsFull := slabx :: l3x.slabsFull }
         else
           { l3x with slabsPartial := slabx :: l3x.slabsPartial }) ∧
    (∀ (l3 : KmemList3) (ac : ArrayCache) (nodeid newId : Nat) (mem : Mem)
       (ebc : Nat),
       ac.entry = [] → l3.slabsPartial = [] → l3.slabsFree = [] →
       (∀ sh, l3.shared = some sh → sh.entry = []) →
       (if ¬ac.touched = true ∧ BATCHREFILL_LIMIT < ac.batchcount then
          BATCHREFILL_LIMIT else ac.batchcount) = ebc →
       1 ≤ ac.batchcount → ac.batchcount ≤ c.num →
       (cache_alloc_refill c l3 ac nodeid false newId mem).1 = none ∧
       (cache_alloc_refill c l3 ac nodeid true newId mem).1 =
         some (newId, ebc - 1)) :=
  ⟨fun l3 sh ac nodeid pageOK newId mem ebc nr hac hsh hebc hnr hnz =>
     refill_shared_first c l3 sh ac nodeid pageOK newId mem ebc nr hac hsh
       hebc hnr hnz,
   fun l3 slabp rest bc hpart hwf hbc hle =>
     refill_walk_single c l3 slabp rest bc hpart hwf hbc hle,
   fun l3x slabx hwfx => refill_relink_by_inuse c l3x slabx hwfx,
   fun l3 ac nodeid newId mem ebc hac hp hf hshar hebc hbc1 hbcn =>
     refill_grow_outcome c l3 ac nodeid newId mem ebc hac hp hf hshar hebc
       hbc1 hbcn⟩

/-- C2 witness: the four refill conjuncts at concrete inputs. -/
theorem C2_witness :
    (2 ≤ c2ac.batchcount ∧
     cache_alloc_refill c2c c2l3 c2ac 0 true 9 mem0 =
       ((c2sh.entry.drop (c2sh.entry.length - 2)).getLast?,
        { c2l3 with
          shared := some { c2sh with
                           entry := c2sh.entry.take (c2sh.entry.length - 2) } },
        { c2ac with
          entry := (c2sh.entry.drop (c2sh.entry.length - 2)).dropLast,
          touched := true },
        mem0, [])) ∧
    (refill_walk c2c 1 1 [] c2l3b =
       ((c2slab.free.take 1).map (fun j => (c2slab.id, j)),
        refill_relink { c2l3b with slabsPartial := [] }
          { c2slab with inuse := c2slab.inuse + 1,
                        free := c2slab.free.drop 1 })) ∧
    (refill_relink emptyL3 c2slabx =
       if c2slabx.inuse = c2c.num then
         { emptyL3 with slabsFull := c2slabx :: emptyL3.slabsFull }
       else
         { emptyL3 with slabsPartial := c2slabx :: emptyL3.slabsPartial }) ∧
    ((cache_alloc_refill c2c emptyL3 c2ac 0 false 9 mem0).1 = none ∧
     (cache_alloc_refill c2c emptyL3 c2ac 0 true 9 mem0).1 =
       some (9, 2 - 1)) :=
  ⟨(C2_refill_behaviour c2c).1 c2l3 c2sh c2ac 0 true 9 mem0 2 2 rfl rfl
     (by decide) (by decide) (by decide),
   (C2_refill_behaviour c2c).2.1 c2l3b c2slab [] 1 rfl (by decide)
     (by decide) (by decide),
   (C2_refill_behaviour c2c).2.2.1 emptyL3 c2slabx (by decide),
   (C2_refill_behaviour c2c).2.2.2 emptyL3 c2ac 0 9 mem0 2 rfl rfl rfl
     (fun sh h => nomatch h) (by decide) (by decide) (by decide)⟩

/-! ## Claim C5: the slab-order search picks the smallest acceptable order -/

/-- ALIGN rounds up. -/
theorem le_ALIGN (x a : Nat) (ha : 1 ≤ a) : x ≤ ALIGN x a := by
  unfold ALIGN
  have h : Nat.land (x + a - 1) (a - 1) ≤ a - 1 := Nat.and_le_right
  omega

/-- The hardware-alignment halving loop never reaches zero for a positive
size. -/
theorem hw_align_go_pos (size : Nat) (hs : 1 ≤ size) :
    ∀ fuel ral, 1 ≤ ral → 1 ≤ hw_align_go size fuel ral := by
  intro fuel
  induction fuel with
  | zero =>
    intro ral h
    exact h
  | succ fuel ih =>
    intro ral h
    simp only [hw_align_go]
    split
    · next hle => exact ih _ (by omega)
    · exact h

/-- A conditional between two positive values is positive. -/
theorem step_pos (c : Prop) [Decidable c] (a b : Nat) (ha : 1 ≤ a)
    (hb : 1 ≤ b) : 1 ≤ if c then a else b := by
  split
  · exact ha
  · exact hb

/-- Raising a positive value to a possibly larger one keeps it positive. -/
theorem raise_pos (r v : Nat) (hr : 1 ≤ r) : 1 ≤ if r < v then v else r := by
  split
  · next h => omega
  · exact hr

/-- The alignment kmem_cache_create settles on is positive. -/
theorem create_ralign_pos (P : Platform) (flags : Flags) (sizew align : Nat)
    (hw : 1 ≤ P.bytesPerWord) (hcl : 1 ≤ P.cacheLineSize) (hs : 1 ≤ sizew) :
    1 ≤ create_ralign P flags sizew align := by
  unfold create_ralign
  exact raise_pos _ _ (raise_pos _ _ (step_pos _ _ _
    (le_trans hw (Nat.le_max_left _ _))
    (step_pos _ _ _ hw
      (step_pos _ _ _ (hw_align_go_pos sizew hs _ _ hcl) hw))))

/-- Word alignment of the size rounds up. -/
theorem create_size_w_ge (P : Platform) (size : Nat) :
    size ≤ create_size_w P size := by
  unfold create_size_w
  split
  · have h : Nat.land (size + (P.bytesPerWord - 1)) (P.bytesPerWord - 1) ≤
        P.bytesPerWord - 1 := Nat.and_le_right
    omega
  · exact le_rfl

/-- The off-slab bit is set by kmem_cache_create only for sizes of at least
an eighth of a page (the caller never passes the internal bit). -/
theorem createFlags2_off_size (P : Platform) (size align : Nat)
    (flags : Flags) (hoff : flags.off_slab = false)
    (h2 : (createFlags2 P size align flags).off_slab = true) :
    P.pageSize >>> 3 ≤ create_size_rz P flags (create_size_w P size) := by
  unfold createFlags2 create_flags_off at h2
  by_cases h : P.pageSize >>> 3 ≤ create_size_rz P flags (create_size_w P size)
  · exact h
  · exfalso
    rw [if_neg h] at h2
    unfold create_flags_dbg at h2
    split at h2
    · dsimp only at h2
      rw [hoff] at h2
      exact absurd h2 (by decide)
    · rw [hoff] at h2
      exact absurd h2 (by decide)

/-- When the off-slab bit is set, the size handed to the order search is at
least an eighth of a page. -/
theorem createSize2_off_ge (P : Platform) (size align : Nat) (flags : Flags)
    (hw : 1 ≤ P.bytesPerWord) (hcl : 1 ≤ P.cacheLineSize)
    (hsz : P.bytesPerWord ≤ size) (hoff : flags.off_slab = false)
    (h2 : (createFlags2 P size align flags).off_slab = true) :
    P.pageSize / 8 ≤ createSize2 P size align flags := by
  have h8 : P.pageSize >>> 3 = P.pageSize / 8 := by
    rw [Nat.shiftRight_eq_div_pow]
  have hrz := createFlags2_off_size P size align flags hoff h2
  have hral : 1 ≤ createRalign P size align flags :=
    create_ralign_pos P flags (create_size_w P size) align hw hcl
      (le_trans (le_trans hw hsz) (create_size_w_ge P size))
  have hfin : create_size_rz P flags (create_size_w P size) ≤
      createSize2 P size align flags :=
    le_ALIGN _ _ hral
  omega

/-- Integer division is superadditive in the numerator. -/
theorem div_add_div_le (a b d : Nat) (hd : 0 < d) :
    a / d + b / d ≤ (a + b) / d := by
  rw [Nat.le_div_iff_mul_le hd]
  calc (a / d + b / d) * d = a / d * d + b / d * d := by ring
    _ ≤ a + b := Nat.add_le_add (Nat.div_mul_le_self _ _)
        (Nat.div_mul_le_self _ _)

/-- The off-slab object count is bounded by the plain division. -/
theorem est_off_le (P : Platform) (g size align : Nat) :
    (cache_estimate P g size align true).2 ≤ (P.pageSize <<< g) / size := by
  unfold cache_estimate
  rw [if_pos rfl]
  dsimp only
  split
  · next h => omega
  · exact le_rfl

/-- The off-slab object count is zero exactly when the division is. -/
theorem est_off_eq_zero_iff (P : Platform) (g size align : Nat) :
    (cache_estimate P g size align true).2 = 0 ↔
      (P.pageSize <<< g) / size = 0 := by
  unfold cache_estimate
  rw [if_pos rfl]
  dsimp only
  split
  · next h =>
    simp only [SLAB_LIMIT] at h ⊢
    omega
  · exact Iff.rfl

/-- Doubling the page count under the shift. -/
theorem shiftLeft_succ_eq (x g : Nat) : x <<< (g + 1) = 2 * (x <<< g) := by
  rw [Nat.shiftLeft_eq, Nat.shiftLeft_eq, pow_succ]
  ring

/-- The raw on-slab count grows by at least one per order once it is
positive. -/
theorem on_slab_nr_step (S s0 d : Nat) (hd : 0 < d)
    (h1 : 1 ≤ (S - s0) / d) : (S - s0) / d + 1 ≤ (2 * S - s0) / d := by
  have hds : d ≤ S - s0 := by
    have := (Nat.le_div_iff_mul_le hd).mp h1
    omega
  have hsplit : 2 * S - s0 = (S - s0) + S := by omega
  have hS1 : 1 ≤ S / d := by
    rw [Nat.le_div_iff_mul_le hd]
    omega
  have hdiv := div_add_div_le (S - s0) S d hd
  rw [hsplit]
  calc (S - s0) / d + 1 ≤ (S - s0) / d + S / d := Nat.add_le_add_left hS1 _
    _ ≤ ((S - s0) + S) / d := hdiv

/-- A positive adjusted object count forces a positive raw division. -/
theorem est_on_pos_raw (P : Platform) (g size align : Nat)
    (h : (cache_estimate P g size align false).2 ≠ 0) :
    1 ≤ (P.pageSize <<< g - P.sizeofSlab) / (size + P.sizeofBufctl) := by
  unfold cache_estimate at h
  rw [if_neg (by decide : ¬(false = true))] at h
  dsimp only at h
  generalize (P.pageSize <<< g - P.sizeofSlab) / (size + P.sizeofBufctl) = u
    at h ⊢
  by_cases hC : P.pageSize <<< g <
      slab_mgmt_size P u align + u * size
  · rw [if_pos hC] at h
    split at h
    · next hcap =>
      simp only [SLAB_LIMIT] at hcap
      omega
    · omega
  · rw [if_neg hC] at h
    split at h
    · next hcap =>
      simp only [SLAB_LIMIT] at hcap
      omega
    · omega

/-- A raw division of at least two survives the adjustment and the cap. -/
theorem est_on_of_raw2 (P : Platform) (g size align : Nat)
    (h2 : 2 ≤ (P.pageSize <<< g - P.sizeofSlab) / (size + P.sizeofBufctl)) :
    (cache_estimate P g size align false).2 ≠ 0 := by
  unfold cache_estimate
  rw [if_neg (by decide : ¬(false = true))]
  dsimp only
  generalize (P.pageSize <<< g - P.sizeofSlab) / (size + P.sizeofBufctl) = u
    at h2 ⊢
  by_cases hC : P.pageSize <<< g <
      slab_mgmt_size P u align + u * size
  · rw [if_pos hC]
    split
    · next hcap =>
      simp only [SLAB_LIMIT]
      omega
    · omega
  · rw [if_neg hC]
    split
    · next hcap =>
      simp only [SLAB_LIMIT]
      omega
    · omega

/-- Once some objects fit at an order, some objects fit at every larger
order. -/
theorem est_nonzero_mono (P : Platform) (size align : Nat) (off : Bool)
    (hb : 0 < P.sizeofBufctl) (g : Nat)
    (h : (cache_estimate P g size align off).2 ≠ 0) :
    (cache_estimate P (g + 1) size align off).2 ≠ 0 := by
  cases off with
  | true =>
    intro hz
    rw [est_off_eq_zero_iff] at hz
    have h' : (P.pageSize <<< g) / size ≠ 0 :=
      fun hz0 => h ((est_off_eq_zero_iff P g size align).mpr hz0)
    have hmono : (P.pageSize <<< g) / size ≤
        (P.pageSize <<< (g + 1)) / size := by
      apply Nat.div_le_div_right
      rw [shiftLeft_succ_eq]
      omega
    exact h' (Nat.le_zero.mp (hz ▸ hmono))
  | false =>
    have hr1 := est_on_pos_raw P g size align h
    have hstep := on_slab_nr_step (P.pageSize <<< g) P.sizeofSlab
      (size + P.sizeofBufctl) (by omega) hr1
    apply est_on_of_raw2
    rw [shiftLeft_succ_eq]
    exact le_trans (Nat.succ_le_succ hr1) hstep

/-- At orders zero and one, an off-slab cache of at least an eighth of a
page fits at most sixteen objects per slab. -/
theorem est_off_le_16 (P : Platform) (g size2 align : Nat)
    (hpos : 0 < P.pageSize) (h8 : 8 ∣ P.pageSize)
    (hsz : P.pageSize / 8 ≤ size2) (hg : g ≤ 1) :
    (cache_estimate P g size2 align true).2 ≤ 16 := by
  obtain ⟨m, hm⟩ := h8
  have hm1 : 1 ≤ m := by omega
  have hm8 : P.pageSize / 8 = m := by omega
  have hS : P.pageSize <<< g ≤ 16 * m := by
    rcases Nat.le_one_iff_eq_zero_or_eq_one.mp hg with rfl | rfl
    · rw [Nat.shiftLeft_zero]
      omega
    · rw [shiftLeft_succ_eq, Nat.shiftLeft_zero]
      omega
  have hdm : (P.pageSize <<< g) / size2 ≤ 16 * m / m :=
    le_trans (Nat.div_le_div_right hS)
      (Nat.div_le_div_left (le_trans (le_of_eq hm8.symm) hsz) hm1)
  have h16 : 16 * m / m = 16 := by
    rw [Nat.mul_div_cancel]
    omega
  exact le_trans (est_off_le P g size2 align) (le_trans hdm (le_of_eq h16))

/-- Where the previous order fits nothing, the next order fits at most one
object off-slab. -/
theorem est_off_first_fit_le_one (P : Platform) (g size2 align : Nat)
    (hz : (cache_estimate P g size2 align true).2 = 0) :
    (cache_estimate P (g + 1) size2 align true).2 ≤ 1 := by
  have hz' := (est_off_eq_zero_iff P g size2 align).mp hz
  refine le_trans (est_off_le P (g + 1) size2 align) ?_
  rcases Nat.eq_zero_or_pos size2 with h0 | h0
  · subst h0
    simp
  · have hlt : P.pageSize <<< g < size2 := by
      by_contra hge
      push_neg at hge
      have h1 : 1 ≤ P.pageSize <<< g / size2 :=
        (Nat.le_div_iff_mul_le h0).mpr (by omega)
      rw [hz'] at h1
      exact absurd h1 (by omega)
    have hS' : P.pageSize <<< (g + 1) < 2 * size2 := by
      rw [shiftLeft_succ_eq]
      omega
    have hd2 : P.pageSize <<< (g + 1) / size2 < 2 :=
      (Nat.div_lt_iff_lt_mul h0).mpr (by omega)
    exact Nat.lt_succ_iff.mp hd2

/-- On well-formed platforms the off-slab bufctl array of a cache of at
least an eighth of a page holds at least sixteen entries. -/
theorem offslab_limit_ge_16 (P : Platform) (size2 : Nat)
    (hb : 0 < P.sizeofBufctl)
    (hWF16 : 16 * P.sizeofBufctl + P.sizeofSlab ≤ P.pageSize / 8)
    (hsz : P.pageSize / 8 ≤ size2) : 16 ≤ offslab_limit P size2 := by
  unfold offslab_limit
  rw [Nat.le_div_iff_mul_le hb]
  omega

/-- The order-search loop returns the smallest candidate order: assuming a
break order of at most one, monotone non-emptiness of the estimate and the
exclusion of the off-slab break at the orders the loop can reach, any
nonzero result is a candidate order and no smaller order is one. -/
theorem calc_order_loop_smallest (P : Platform) (size align : Nat)
    (flags : Flags)
    (hsb : P.slabBreakGfpOrder ≤ 1)
    (hsbmax : P.slabBreakGfpOrder ≤ P.kmallocMaxOrder)
    (hmono : ∀ g, (cache_estimate P g size align flags.off_slab).2 ≠ 0 →
      (cache_estimate P (g + 1) size align flags.off_slab).2 ≠ 0)
    (hnob : ∀ g, (cache_estimate P g size align flags.off_slab).2 ≠ 0 →
      ((∀ j, j < g → (cache_estimate P j size align flags.off_slab).2 = 0) ∨
        g ≤ 1) →
      ¬(flags.off_slab = true ∧ offslab_limit P size <
          (cache_estimate P g size align flags.off_slab).2)) :
    ∀ fuel g saved,
    fuel = P.kmallocMaxOrder + 1 - g →
    (∀ j, j < g → ¬ orderCand P size align flags j) →
    ((saved.num = 0 ∧
        ∀ j, j < g → (cache_estimate P j size align flags.off_slab).2 = 0) ∨
      (g = 1 ∧ P.slabBreakGfpOrder = 1 ∧
        (cache_estimate P 0 size align flags.off_slab).2 ≠ 0)) →
    (calc_order_loop P size align flags fuel g saved).num ≠ 0 →
    orderCand P size align flags
      (calc_order_loop P size align flags fuel g saved).gfporder ∧
    ∀ j, j < (calc_order_loop P size align flags fuel g saved).gfporder →
      ¬ orderCand P size align flags j := by
  intro fuel
  induction fuel with
  | zero =>
    intro g saved hfuel hinv1 hinv2 hnum
    simp only [calc_order_loop] at hnum ⊢
    rcases hinv2 with ⟨h0, _⟩ | ⟨hg, hsb1, _⟩
    · exact absurd h0 hnum
    · omega
  | succ fuel ih =>
    intro g saved hfuel hinv1 hinv2 hnum
    have hgle : g ≤ P.kmallocMaxOrder := by omega
    simp only [calc_order_loop] at hnum ⊢
    rw [if_neg (by omega : ¬P.kmallocMaxOrder < g)] at hnum ⊢
    by_cases h2 : (cache_estimate P g size align flags.off_slab).2 = 0
    · rw [if_pos h2] at hnum ⊢
      refine ih (g + 1) saved (by omega) ?_ ?_ hnum
      · intro j hj
        rcases Nat.lt_succ_iff_lt_or_eq.mp hj with hj' | hj'
        · exact hinv1 j hj'
        · subst hj'
          intro hc
          have h1 := hc.1
          omega
      · rcases hinv2 with ⟨h0, hz⟩ | ⟨hg, hsb1, h0nz⟩
        · refine Or.inl ⟨h0, fun j hj => ?_⟩
          rcases Nat.lt_succ_iff_lt_or_eq.mp hj with hj' | hj'
          · exact hz j hj'
          · subst hj'
            exact h2
        · subst hg
          exact absurd h2 (hmono 0 h0nz)
    · rw [if_neg h2] at hnum ⊢
      have h2' : 1 ≤ (cache_estimate P g size align flags.off_slab).2 := by
        omega
      by_cases h3 : flags.off_slab = true ∧ offslab_limit P size <
          (cache_estimate P g size align flags.off_slab).2
      · exfalso
        refine hnob g h2 ?_ h3
        rcases hinv2 with ⟨_, hz⟩ | ⟨hg, _, _⟩
        · exact Or.inl hz
        · exact Or.inr (by omega)
      · rw [if_neg h3] at hnum ⊢
        by_cases h4 : flags.reclaim_account = true
        · rw [if_pos h4] at hnum ⊢
          exact ⟨⟨h2', Or.inl h4⟩, hinv1⟩
        · rw [if_neg h4] at hnum ⊢
          by_cases h5 : P.slabBreakGfpOrder ≤ g
          · rw [if_pos h5] at hnum ⊢
            exact ⟨⟨h2', Or.inr (Or.inl h5)⟩, hinv1⟩
          · rw [if_neg h5] at hnum ⊢
            by_cases h6 : (cache_estimate P g size align flags.off_slab).1 * 8 ≤
                P.pageSize <<< g
            · rw [if_pos h6] at hnum ⊢
              exact ⟨⟨h2', Or.inr (Or.inr h6)⟩, hinv1⟩
            · rw [if_neg h6] at hnum ⊢
              have hg0 : g = 0 := by omega
              refine ih (g + 1) _ (by omega) ?_ ?_ hnum
              · intro j hj
                rcases Nat.lt_succ_iff_lt_or_eq.mp hj with hj' | hj'
                · exact hinv1 j hj'
                · subst hj'
                  intro hc
                  rcases hc.2 with hr | hb | hf
                  · exact h4 hr
                  · exact h5 hb
                  · exact h6 hf
              · subst hg0
                exact Or.inr ⟨rfl, by omega, h2⟩

/-- C5: for every size, alignment and flag set on which cache creation
succeeds (on a well-formed platform, with the internal off-slab bit not
passed in), the slab-order search inspects orders upward from zero, never
settles on an order where no object fits, and the selected order is the
smallest at which at least one object fits and that carries the
reclaim-accounted flag, has reached the break order, or wastes at most an
eighth of the slab bytes; the selected geometry has at least one object per
slab, and its object count is the estimate of the selected order. -/
theorem C5_smallest_order (P : Platform) (hasName : Bool) (size align : Nat)
    (flags : Flags) (ctor : Option Nat) (inInterrupt : Bool) (c : KmemCache)
    (hWF : P.WF) (hoff : flags.off_slab = false)
    (hok : kmem_cache_create P hasName size align flags ctor false inInterrupt =
      CreateResult.ok c) :
    1 ≤ c.num ∧
    c.num = (cache_estimate P c.gfporder (createSize2 P size align flags)
      (createRalign P size align flags)
      (createFlags2 P size align flags).off_slab).2 ∧
    orderCand P (createSize2 P size align flags)
      (createRalign P size align flags) (createFlags2 P size align flags)
      c.gfporder ∧
    ∀ g, g < c.gfporder →
      ¬ orderCand P (createSize2 P size align flags)
        (createRalign P size align flags) (createFlags2 P size align flags)
        g := by
  obtain ⟨hw, hcl, hb, hs0, hpg, hsb, hsbmax, h8, h16⟩ := hWF
  have hszw : P.bytesPerWord ≤ size := by
    unfold kmem_cache_create at hok
    split at hok
    · exact absurd hok (by simp)
    · next hcond =>
      by_contra hlt
      push_neg at hlt
      exact hcond (Or.inr (Or.inr (Or.inl hlt)))
  obtain ⟨hnum, hsplit⟩ := create_assemble_ok_inv P ctor _ _ _ _ c
    (create_ok_inv2 P hasName size align flags ctor inInterrupt c hok)
  have hcg : c.gfporder = (createOrder P size align flags).gfporder ∧
      c.num = (createOrder P size align flags).num := by
    rcases hsplit with ⟨_, _, hc⟩ | ⟨_, hc⟩ <;> subst hc <;> exact ⟨rfl, rfl⟩
  have hmono' : ∀ g, (cache_estimate P g (createSize2 P size align flags)
        (createRalign P size align flags)
        (createFlags2 P size align flags).off_slab).2 ≠ 0 →
      (cache_estimate P (g + 1) (createSize2 P size align flags)
        (createRalign P size align flags)
        (createFlags2 P size align flags).off_slab).2 ≠ 0 :=
    fun g => est_nonzero_mono P _ _ _ hb g
  have hnob' : ∀ g, (cache_estimate P g (createSize2 P size align flags)
        (createRalign P size align flags)
        (createFlags2 P size align flags).off_slab).2 ≠ 0 →
      ((∀ j, j < g → (cache_estimate P j (createSize2 P size align flags)
          (createRalign P size align flags)
          (createFlags2 P size align flags).off_slab).2 = 0) ∨ g ≤ 1) →
      ¬((createFlags2 P size align flags).off_slab = true ∧
        offslab_limit P (createSize2 P size align flags) <
          (cache_estimate P g (createSize2 P size align flags)
            (createRalign P size align flags)
            (createFlags2 P size align flags).off_slab).2) := by
    intro g hnz hprev hcontra
    obtain ⟨ho, hlt⟩ := hcontra
    have hsz2 : P.pageSize / 8 ≤ createSize2 P size align flags :=
      createSize2_off_ge P size align flags hw hcl hszw hoff ho
    rw [ho] at hlt hprev
    have hest16 : (cache_estimate P g (createSize2 P size align flags)
        (createRalign P size align flags) true).2 ≤ 16 := by
      rcases hprev with hall | hle1
      · rcases g with _ | g'
        · exact est_off_le_16 P 0 _ _ hpg h8 hsz2 (by omega)
        · exact le_trans (est_off_first_fit_le_one P g' _ _
            (hall g' (by omega))) (by omega)
      · exact est_off_le_16 P g _ _ hpg h8 hsz2 hle1
    have hlim := offslab_limit_ge_16 P (createSize2 P size align flags) hb
      h16 hsz2
    omega
  have hloop := calc_order_loop_smallest P (createSize2 P size align flags)
    (createRalign P size align flags) (createFlags2 P size align flags)
    hsb hsbmax hmono' hnob' (P.kmallocMaxOrder + 1) 0 ⟨0, 0, 0⟩
    (by omega) (fun j hj => absurd hj (Nat.not_lt_zero j))
    (Or.inl ⟨rfl, fun j hj => absurd hj (Nat.not_lt_zero j)⟩) hnum
  refine ⟨?_, ?_, ?_, ?_⟩
  · rw [hcg.2]
    omega
  · rw [hcg.2, hcg.1]
    exact (createOrder_est P size align flags hnum).1
  · rw [hcg.1]
    exact hloop.1
  · intro g hg
    rw [hcg.1] at hg
    exact hloop.2 g hg

/-- Fixture cache for the C5 witness: the result of creating a 1100-byte
cache on the 32-bit platform (the search skips no order, rejects order 0
for fragmentation above one eighth, and settles on order 1). -/
def c5c : KmemCache :=
  { num := 7, gfporder := 1, buffer_size := 1100, align := 4, colour := 13,
    colour_off := 32, slab_size := 56, flags := {}, ctor := none }

/-- C5 witness: the smallest-order property at a concrete creation whose
selected order is 1, so the minimality conjunct is not vacuous. -/
theorem C5_witness :
    P32.WF ∧ ({} : Flags).off_slab = false ∧
    kmem_cache_create P32 true 1100 0 {} none false false =
      CreateResult.ok c5c ∧
    (1 ≤ c5c.num ∧
     c5c.num = (cache_estimate P32 c5c.gfporder (createSize2 P32 1100 0 {})
       (createRalign P32 1100 0 {}) (createFlags2 P32 1100 0 {}).off_slab).2 ∧
     orderCand P32 (createSize2 P32 1100 0 {}) (createRalign P32 1100 0 {})
       (createFlags2 P32 1100 0 {}) c5c.gfporder ∧
     ∀ g, g < c5c.gfporder →
       ¬ orderCand P32 (createSize2 P32 1100 0 {})
         (createRalign P32 1100 0 {}) (createFlags2 P32 1100 0 {}) g) :=
  ⟨by decide, by decide, by decide,
   C5_smallest_order P32 true 1100 0 {} none false c5c (by decide) (by decide)
     (by decide)⟩

/-! ## Claim C1: the slab-list invariant -/

/-- The per-node slab-list invariant: every slab on a list has a free chain
that accounts exactly for the slots not in use, and the list it sits on is
the one its inuse count dictates: the full list holds the fully used slabs,
the partly-used list the ones with some but not all objects out, the free
list the untouched ones. -/
def SlabInv (c : KmemCache) (l3 : KmemList3) : Prop :=
  (∀ s ∈ l3.slabsFull, s.inuse + s.free.length = c.num ∧ s.inuse = c.num) ∧
  (∀ s ∈ l3.slabsPartial,
    s.inuse + s.free.length = c.num ∧ 0 < s.inuse ∧ s.inuse < c.num) ∧
  (∀ s ∈ l3.slabsFree, s.inuse + s.free.length = c.num ∧ s.inuse = 0)

instance (c : KmemCache) (l3 : KmemList3) : Decidable (SlabInv c l3) := by
  unfold SlabInv
  infer_instance

/-- A free request is valid when the slab it names (if any is linked) still
has an object out. -/
def validFreeOneB (l3 : KmemList3) (o : Obj) : Bool :=
  match findSlab l3 o.1 with
  | some s => s.inuse != 0
  | none => true

/-- Validity of a whole batch of free requests, each checked against the
state left by the previous ones. -/
def validFreesB (num : Nat) : KmemList3 → List Obj → Bool
  | _, [] => true
  | l3, o :: rest =>
    validFreeOneB l3 o && validFreesB num (free_block_one num l3 o) rest

/-- Relinking a pulled slab keeps the invariant: the full list gets it
exactly when its free chain emptied (so inuse = num under the accounting),
the partly-used list otherwise. -/
theorem refill_relink_inv (c : KmemCache) (l3 : KmemList3) (s : Slab)
    (hInv : SlabInv c l3) (hwf : s.inuse + s.free.length = c.num)
    (hpos : s.free ≠ [] → 0 < s.inuse) :
    SlabInv c (refill_relink l3 s) := by
  unfold refill_relink
  by_cases hf : s.free = []
  · rw [if_pos hf]
    refine ⟨?_, hInv.2.1, hInv.2.2⟩
    intro t ht
    rcases List.mem_cons.mp ht with rfl | ht'
    · refine ⟨hwf, ?_⟩
      rw [hf] at hwf
      simpa using hwf
    · exact hInv.1 t ht'
  · rw [if_neg hf]
    refine ⟨hInv.1, ?_, hInv.2.2⟩
    intro t ht
    rcases List.mem_cons.mp ht with rfl | ht'
    · have hlen : 1 ≤ t.free.length := by
        rcases hn : t.free with _ | ⟨a, l⟩
        · exact absurd hn hf
        · simp [hn]
      exact ⟨hwf, hpos hf, by omega⟩
    · exact hInv.2.1 t ht'

/-- The refill walk preserves the invariant. -/
theorem refill_walk_inv (c : KmemCache) :
    ∀ (fuel bc : Nat) (acc : List Obj) (l3 : KmemList3), SlabInv c l3 →
    SlabInv c (refill_walk c fuel bc acc l3).2 := by
  intro fuel
  induction fuel with
  | zero =>
    intro bc acc l3 h
    exact h
  | succ fuel ih =>
    intro bc acc l3 h
    unfold refill_walk
    by_cases hbc : bc = 0
    · rw [if_pos hbc]
      exact h
    · rw [if_neg hbc]
      rcases hp : l3.slabsPartial with _ | ⟨s, rest⟩
      · dsimp only
        rcases hf : l3.slabsFree with _ | ⟨s, rest⟩
        · dsimp only
          exact ⟨h.1, fun t ht => absurd ht (List.not_mem_nil t),
            fun t ht => absurd ht (List.not_mem_nil t)⟩
        · dsimp only
          have hcls := h.2.2 s (by rw [hf]; exact List.mem_cons_self s rest)
          rw [slab_pull_spec c bc s acc hcls.1]
          dsimp only
          apply ih
          apply refill_relink_inv
          · exact ⟨h.1, fun t ht => absurd ht (List.not_mem_nil t),
              fun t ht =>
                h.2.2 t (by rw [hf]; exact List.mem_cons_of_mem s ht)⟩
          · show (s.inuse + min (c.num - s.inuse) bc) +
              (s.free.drop (min (c.num - s.inuse) bc)).length = c.num
            rw [List.length_drop]
            have h1 := hcls.1
            omega
          · intro hne
            show 0 < s.inuse + min (c.num - s.inuse) bc
            have hlen : ¬(s.free.length ≤ min (c.num - s.inuse) bc) := by
              intro hle
              exact hne (List.drop_eq_nil_of_le hle)
            have h1 := hcls.1
            have h0 := hcls.2
            omega
      · dsimp only
        have hcls := h.2.1 s (by rw [hp]; exact List.mem_cons_self s rest)
        rw [slab_pull_spec c bc s acc hcls.1]
        dsimp only
        apply ih
        apply refill_relink_inv
        · exact ⟨h.1, fun t ht =>
            h.2.1 t (by rw [hp]; exact List.mem_cons_of_mem s ht), h.2.2⟩
        · show (s.inuse + min (c.num - s.inuse) bc) +
            (s.free.drop (min (c.num - s.inuse) bc)).length = c.num
          rw [List.length_drop]
          have h1 := hcls.1
          omega
        · intro _
          show 0 < s.inuse + min (c.num - s.inuse) bc
          have h0 := hcls.2.1
          omega

/-- Growing a slab preserves the invariant: the fresh slab is fully free
and lands on the free list. -/
theorem cache_grow_inv (c : KmemCache) (l3 : KmemList3)
    (nodeid : Nat) (pageOK : Bool) (newId : Nat) (mem : Mem)
    (h : SlabInv c l3) :
    SlabInv c (cache_grow c l3 nodeid pageOK newId mem).2.1 := by
  unfold cache_grow
  dsimp only
  split
  · exact h
  · rw [cache_init_objs_fst]
    refine ⟨h.1, h.2.1, ?_⟩
    intro s hs
    rcases List.mem_append.mp hs with hs' | hs'
    · exact h.2.2 s hs'
    · have hs2 := List.mem_singleton.mp hs'
      subst hs2
      exact ⟨by simp [alloc_slabmgmt], by simp [alloc_slabmgmt]⟩

/-- The refill loop preserves the invariant through the shared transfer,
the walk, growth and the retry. -/
theorem refill_go_inv (c : KmemCache) (nodeid : Nat) (pageOK : Bool)
    (newId : Nat) :
    ∀ (retries : Nat) (l3 : KmemList3) (ac : ArrayCache) (mem : Mem)
      (log : List Obj), SlabInv c l3 →
    SlabInv c (cache_alloc_refill_go c l3 ac nodeid pageOK newId mem log
      retries).2.1 := by
  intro retries
  induction retries with
  | zero =>
    intro l3 ac mem log h
    exact h
  | succ retries ih =>
    intro l3 ac mem log h
    rcases hsh : l3.shared with _ | sh
    · simp only [cache_alloc_refill_go, hsh]
      rw [if_neg (by decide : ¬((0 : Nat) ≠ 0))]
      generalize (if ¬ac.touched = true ∧ BATCHREFILL_LIMIT < ac.batchcount
        then BATCHREFILL_LIMIT else ac.batchcount) = bc
      split
      · split
        · exact cache_grow_inv c _ nodeid pageOK newId mem
            (refill_walk_inv c bc bc [] l3 h)
        · exact ih _ _ _ _ (cache_grow_inv c _ nodeid pageOK newId mem
            (refill_walk_inv c bc bc [] l3 h))
      · exact refill_walk_inv c bc bc [] l3 h
    · simp only [cache_alloc_refill_go, hsh]
      generalize (if ¬ac.touched = true ∧ BATCHREFILL_LIMIT < ac.batchcount
        then BATCHREFILL_LIMIT else ac.batchcount) = bc
      split
      · exact h
      · split
        · split
          · exact cache_grow_inv c _ nodeid pageOK newId mem
              (refill_walk_inv c bc bc [] _ h)
          · exact ih _ _ _ _ (cache_grow_inv c _ nodeid pageOK newId mem
              (refill_walk_inv c bc bc [] _ h))
        · exact refill_walk_inv c bc bc [] _ h

/-- Releasing one valid object preserves the invariant: the slab is
unlinked, the slot rejoins the free chain, inuse drops, and the slab is
relinked to the free list, destroyed, or appended to the tail of the
partly-used list according to the new inuse. -/
theorem free_block_one_inv (c : KmemCache) (l3 : KmemList3) (o : Obj)
    (h : SlabInv c l3) (hv : validFreeOneB l3 o = true) :
    SlabInv c (free_block_one c.num l3 o) := by
  unfold free_block_one
  unfold validFreeOneB at hv
  rcases hfind : findSlab l3 o.1 with _ | s
  · exact h
  · rw [hfind] at hv
    have hin : 1 ≤ s.inuse := by
      simp only [bne_iff_ne] at hv
      omega
    have hmem : s ∈ l3.slabsFull ++ l3.slabsPartial ++ l3.slabsFree := by
      have := List.mem_of_find?_eq_some hfind
      simpa [findSlab] using this
    have hsw : s.inuse + s.free.length = c.num ∧ s.inuse ≤ c.num := by
      rcases List.mem_append.mp hmem with hm | hm
      · rcases List.mem_append.mp hm with hm' | hm'
        · have hc := h.1 s hm'
          exact ⟨hc.1, by omega⟩
        · have hc := h.2.1 s hm'
          exact ⟨hc.1, by omega⟩
      · have hc := h.2.2 s hm
        exact ⟨hc.1, by omega⟩
    have hdel : SlabInv c (delSlab l3 o.1) :=
      ⟨fun t ht => h.1 t ((List.eraseP_sublist _).subset ht),
       fun t ht => h.2.1 t ((List.eraseP_sublist _).subset ht),
       fun t ht => h.2.2 t ((List.eraseP_sublist _).subset ht)⟩
    dsimp only [slab_put_obj]
    split
    · next hz =>
      split
      · exact hdel
      · refine ⟨hdel.1, hdel.2.1, ?_⟩
        intro t ht
        rcases List.mem_cons.mp ht with rfl | ht'
        · refine ⟨?_, hz⟩
          show (s.inuse - 1) + (o.2 :: s.free).length = c.num
          simp only [List.length_cons]
          omega
        · exact hdel.2.2 t ht'
    · next hz =>
      refine ⟨hdel.1, ?_, hdel.2.2⟩
      intro t ht
      rcases List.mem_append.mp ht with ht' | ht'
      · exact hdel.2.1 t ht'
      · have ht2 := List.mem_singleton.mp ht'
        subst ht2
        refine ⟨?_, ?_, ?_⟩
        · show (s.inuse - 1) + (o.2 :: s.free).length = c.num
          simp only [List.length_cons]
          omega
        · show 0 < s.inuse - 1
          omega
        · show s.inuse - 1 < c.num
          omega

/-- Releasing a batch of valid objects preserves the invariant. -/
theorem free_block_inv (c : KmemCache) :
    ∀ (objpp : List Obj) (l3 : KmemList3), SlabInv c l3 →
    validFreesB c.num l3 objpp = true →
    SlabInv c (free_block c.num l3 objpp) := by
  intro objpp
  induction objpp with
  | nil =>
    intro l3 h _
    exact h
  | cons o rest ih =>
    intro l3 h hv
    simp only [validFreesB, Bool.and_eq_true] at hv
    show SlabInv c (free_block c.num (free_block_one c.num l3 o) rest)
    exact ih _ (free_block_one_inv c l3 o h hv.1) hv.2

/-- Flushing the cpu array preserves the invariant: the shared-array path
leaves the slab lists alone; the slab path is a free_block. -/
theorem cache_flusharray_inv (c : KmemCache) (l3 : KmemList3)
    (ac : ArrayCache) (h : SlabInv c l3)
    (hv : validFreesB c.num l3 (ac.entry.take ac.batchcount) = true) :
    SlabInv c (cache_flusharray c.num l3 ac).1 := by
  unfold cache_flusharray
  rcases hsh : l3.shared with _ | sh
  · dsimp only
    exact free_block_inv c _ l3 h hv
  · dsimp only
    split
    · exact h
    · exact free_block_inv c _ l3 h hv

/-- Destroying free slabs from the tail of the free list preserves the
invariant. -/
theorem drain_freelist_inv (c : KmemCache) :
    ∀ (tofree : Nat) (l3 : KmemList3), SlabInv c l3 →
    SlabInv c (drain_freelist c.num l3 tofree).1 := by
  intro tofree
  induction tofree with
  | zero =>
    intro l3 h
    exact h
  | succ tofree ih =>
    intro l3 h
    unfold drain_freelist
    split
    · exact h
    · dsimp only
      apply ih
      exact ⟨h.1, h.2.1,
        fun t ht => h.2.2 t (List.dropLast_sublist _ |>.subset ht)⟩

/-- C1: in every state satisfying the slab-list invariant, each linked slab
has 0 <= inuse <= objects-per-slab, the list holding it is determined
solely by inuse (full exactly at inuse = num, partly-used exactly at
0 < inuse < num, free exactly at inuse = 0), the three lists are mutually
exclusive; the empty node state satisfies the invariant and refill, growth,
free and flush of valid objects, and free-list shrinking all preserve
it. -/
theorem C1_list_invariant (c : KmemCache) :
    (∀ l3, SlabInv c l3 →
      (∀ s, (s ∈ l3.slabsFull ∨ s ∈ l3.slabsPartial ∨ s ∈ l3.slabsFree) →
        s.inuse ≤ c.num) ∧
      (∀ s, s ∈ l3.slabsFull → s.inuse = c.num) ∧
      (∀ s, s ∈ l3.slabsPartial → 0 < s.inuse ∧ s.inuse < c.num) ∧
      (∀ s, s ∈ l3.slabsFree → s.inuse = 0) ∧
      (∀ s, s ∈ l3.slabsFull → s ∉ l3.slabsPartial) ∧
      (∀ s, s ∈ l3.slabsPartial → s ∉ l3.slabsFree) ∧
      (1 ≤ c.num → ∀ s, s ∈ l3.slabsFull → s ∉ l3.slabsFree)) ∧
    SlabInv c emptyL3 ∧
    (∀ (l3 : KmemList3) (nodeid : Nat) (pageOK : Bool) (newId : Nat)
       (mem : Mem), SlabInv c l3 →
      SlabInv c (cache_grow c l3 nodeid pageOK newId mem).2.1) ∧
    (∀ (l3 : KmemList3) (ac : ArrayCache) (nodeid : Nat) (pageOK : Bool)
       (newId : Nat) (mem : Mem), SlabInv c l3 →
      SlabInv c (cache_alloc_refill c l3 ac nodeid pageOK newId mem).2.1) ∧
    (∀ (objpp : List Obj) (l3 : KmemList3), SlabInv c l3 →
      validFreesB c.num l3 objpp = true →
      SlabInv c (free_block c.num l3 objpp)) ∧
    (∀ (l3 : KmemList3) (ac : ArrayCache), SlabInv c l3 →
      validFreesB c.num l3 (ac.entry.take ac.batchcount) = true →
      SlabInv c (cache_flusharray c.num l3 ac).1) ∧
    (∀ (tofree : Nat) (l3 : KmemList3), SlabInv c l3 →
      SlabInv c (drain_freelist c.num l3 tofree).1) := by
  refine ⟨?_, ?_, ?_, ?_, ?_, ?_, ?_⟩
  · intro l3 h
    refine ⟨?_, ?_, ?_, ?_, ?_, ?_, ?_⟩
    · intro s hs
      rcases hs with hm | hm | hm
      · have := (h.1 s hm).2
        omega
      · have := (h.2.1 s hm).2.2
        omega
      · have := (h.2.2 s hm).2
        omega
    · exact fun s hm => (h.1 s hm).2
    · exact fun s hm => (h.2.1 s hm).2
    · exact fun s hm => (h.2.2 s hm).2
    · intro s hm hmp
      have h1 := (h.1 s hm).2
      have h2 := (h.2.1 s hmp).2.2
      omega
    · intro s hm hmf
      have h1 := (h.2.1 s hm).2.1
      have h2 := (h.2.2 s hmf).2
      omega
    · intro hn s hm hmf
      have h1 := (h.1 s hm).2
      have h2 := (h.2.2 s hmf).2
      omega
  · exact ⟨fun s hs => absurd hs (List.not_mem_nil s),
      fun s hs => absurd hs (List.not_mem_nil s),
      fun s hs => absurd hs (List.not_mem_nil s)⟩
  · exact fun l3 nodeid pageOK newId mem h =>
      cache_grow_inv c l3 nodeid pageOK newId mem h
  · exact fun l3 ac nodeid pageOK newId mem h =>
      refill_go_inv c nodeid pageOK newId 2 l3 ac mem [] h
  · exact fun objpp l3 h hv => free_block_inv c objpp l3 h hv
  · exact fun l3 ac h hv => cache_flusharray_inv c l3 ac h hv
  · exact fun tofree l3 h => drain_freelist_inv c tofree l3 h

/-- Fixture cache for the C1 witness: two objects per slab. -/
def c1c : KmemCache :=
  { num := 2, gfporder := 0, buffer_size := 64, align := 8, colour := 1,
    colour_off := 32, slab_size := 32, flags := {}, ctor := none }

/-- Fixture slab with one object out. -/
def c1slab : Slab :=
  { id := 3, colouroff := 0, inuse := 1, free := [1], nodeid := 0 }

/-- Fixture node list-set with one partly used slab. -/
def c1l3 : KmemList3 := { emptyL3 with slabsPartial := [c1slab] }

/-- Fixture empty cpu array for the refill conjunct. -/
def c1ac : ArrayCache :=
  { entry := [], limit := 4, batchcount := 2, touched := false }

/-- Fixture cpu array holding one valid object for the flush conjunct. -/
def c1ac2 : ArrayCache :=
  { entry := [(3, 0)], limit := 4, batchcount := 1, touched := false }

/-- C1 witness: every conjunct of the invariant theorem at concrete
inputs. -/
theorem C1_witness :
    ((∀ s, (s ∈ c1l3.slabsFull ∨ s ∈ c1l3.slabsPartial ∨
        s ∈ c1l3.slabsFree) → s.inuse ≤ c1c.num) ∧
     (∀ s, s ∈ c1l3.slabsFull → s.inuse = c1c.num) ∧
     (∀ s, s ∈ c1l3.slabsPartial → 0 < s.inuse ∧ s.inuse < c1c.num) ∧
     (∀ s, s ∈ c1l3.slabsFree → s.inuse = 0) ∧
     (∀ s, s ∈ c1l3.slabsFull → s ∉ c1l3.slabsPartial) ∧
     (∀ s, s ∈ c1l3.slabsPartial → s ∉ c1l3.slabsFree) ∧
     (1 ≤ c1c.num → ∀ s, s ∈ c1l3.slabsFull → s ∉ c1l3.slabsFree)) ∧
    SlabInv c1c emptyL3 ∧
    SlabInv c1c (cache_grow c1c c1l3 0 true 9 mem0).2.1 ∧
    SlabInv c1c (cache_alloc_refill c1c c1l3 c1ac 0 true 9 mem0).2.1 ∧
    SlabInv c1c (free_block c1c.num c1l3 [(3, 0)]) ∧
    SlabInv c1c (cache_flusharray c1c.num c1l3 c1ac2).1 ∧
    SlabInv c1c (drain_freelist c1c.num c1l3 1).1 :=
  ⟨(C1_list_invariant c1c).1 c1l3 (by decide),
   (C1_list_invariant c1c).2.1,
   (C1_list_invariant c1c).2.2.1 c1l3 0 true 9 mem0 (by decide),
   (C1_list_invariant c1c).2.2.2.1 c1l3 c1ac 0 true 9 mem0 (by decide),
   (C1_list_invariant c1c).2.2.2.2.1 [(3, 0)] c1l3 (by decide) (by decide),
   (C1_list_invariant c1c).2.2.2.2.2.1 c1l3 c1ac2 (by decide) (by decide),
   (C1_list_invariant c1c).2.2.2.2.2.2 1 c1l3 (by decide)⟩

end SlabM
